import Mathlib

/-!
Verification development for the EMS inventory/sales application.

The definitions below are a shallow embedding of the backend request
handlers relevant to the sales/stock/balance flow:
* `src/backend/routes/sales.js` (sale creation and deletion),
* `src/backend/utils/logger.js` (audit logging),
* `src/backend/utils/license-generator.js` (license keys),
* the products route `PUT /:id` handler (product update).

Monetary amounts and stock quantities are modelled as rationals (the
JavaScript code computes with IEEE numbers obtained from `parseFloat`;
the arithmetic performed is plain +, -, min, max and comparisons, which
we model over `ℚ`).  Database tables are lists of rows; a SQL
`SELECT ... WHERE id = ?` that takes the first row is `List.find?`, a SQL
`UPDATE ... WHERE id = ?` is a `List.map` that rewrites the matching rows.
-/

set_option maxHeartbeats 1000000

namespace EMS

/-- Tri-state classification stored in `sales.payment_status`
(schema: CHECK(payment_status IN ('paid', 'overpaid', 'underpaid'))). -/
inductive PaymentStatus
  | paid
  | overpaid
  | underpaid
deriving DecidableEq, Repr

/-- A row of the `products` table (columns relevant to the sale flow). -/
structure Product where
  id : Nat
  name : String
  qty : ℚ
  original_price : ℚ
  sale_price : ℚ
  unit_id : Option Nat
  description : Option String
deriving DecidableEq, Repr

/-- A row of the `customers` table (columns relevant to the sale flow). -/
structure Customer where
  id : Nat
  name : String
  overpaid_amount : ℚ
  underpaid_amount : ℚ
deriving DecidableEq, Repr

/-- A row of the `sales` table. -/
structure Sale where
  id : Nat
  customer_id : Option Nat
  customer_name : String
  total_amount : ℚ
  paid_amount : ℚ
  payment_status : PaymentStatus
  notes : Option String
deriving DecidableEq, Repr

/-- A row of the `sale_items` table. -/
structure SaleItem where
  sale_id : Nat
  product_id : Nat
  product_name : String
  qty : ℚ
  unit_price : ℚ
  subtotal : ℚ
deriving DecidableEq, Repr

/-- The database state touched by the sale flow.  `nextSaleId` models the
AUTOINCREMENT counter of the `sales` table. -/
structure DB where
  products : List Product
  customers : List Customer
  sales : List Sale
  sale_items : List SaleItem
  nextSaleId : Nat
deriving DecidableEq, Repr

/-- One line item of a `POST /api/sales` request body. -/
structure ReqItem where
  product_id : Nat
  qty : ℚ
deriving DecidableEq, Repr

/-- Body of a `POST /api/sales` request. -/
structure SaleRequest where
  items : List ReqItem
  customer_id : Option Nat
  customer_name : Option String
  total_amount : ℚ
  paid_amount : ℚ
  notes : Option String
deriving DecidableEq, Repr

/-- One entry of the `out_of_stock` array returned on stock insufficiency
(sales.js lines 136-141). -/
structure OOSItem where
  product_id : Nat
  product_name : String
  available_qty : ℚ
  requested_qty : ℚ
deriving DecidableEq, Repr

/-- One entry of the `productData` array built during the stock-check loop
(sales.js lines 144-147): the product row as read at the start of the
transaction together with the requested quantity. -/
structure ProdReq where
  prod : Product
  requested_qty : ℚ
deriving DecidableEq, Repr

/-- Payload snapshot stored in an audit log row (`JSON.stringify` of
structured data is modelled as the data itself): a sale together with its
items (success logs of both sale handlers), or the request fields
customer_name, total_amount and items logged by the catch path of sale
creation (sales.js line 267). -/
inductive LogPayload
  | saleData (sale : Sale) (items : List SaleItem)
  | failureData (customer_name : Option String) (total_amount : ℚ)
      (items : List ReqItem)
deriving DecidableEq, Repr

/-- A row of the `activity_logs` table (logger.js `logActivity`). -/
structure LogRow where
  username : String
  action : String
  table_name : String
  record_id : Option Nat
  old_data : Option LogPayload
  new_data : Option LogPayload
  status : String
  error_message : Option String
deriving DecidableEq, Repr

/-- Response of the `POST /api/sales` handler, abstracted to its cases:
400 validation error, 404 missing product, 400 out-of-stock, 201 created,
500 on a caught exception. -/
inductive CreateResponse
  | validationError
  | productNotFound (product_id : Nat)
  | outOfStock (items : List OOSItem)
  | created (saleId : Nat)
  | serverError (error : String)
deriving DecidableEq, Repr

/-- Result of running the `POST /api/sales` handler: committed database,
HTTP response, and audit log rows written. -/
structure CreateOutcome where
  db : DB
  response : CreateResponse
  logs : List LogRow
deriving DecidableEq, Repr

/-- Response of the `DELETE /api/sales/:id` handler: 404, 200,
or 500 on a caught exception. -/
inductive DeleteResponse
  | notFound
  | deleted
  | serverError (error : String)
deriving DecidableEq, Repr

/-- Result of running the `DELETE /api/sales/:id` handler. -/
structure DeleteOutcome where
  db : DB
  response : DeleteResponse
  logs : List LogRow
deriving DecidableEq, Repr

/-- JavaScript `Math.min` on two numbers. -/
def mathMin (a b : ℚ) : ℚ := if a ≤ b then a else b

/-- JavaScript `Math.max` on two numbers. -/
def mathMax (a b : ℚ) : ℚ := if a ≤ b then b else a

/-- SQL `SELECT ... FROM products WHERE id = ?`, taking the first row. -/
def findProduct (ps : List Product) (pid : Nat) : Option Product :=
  ps.find? (fun p => p.id == pid)

/-- SQL `SELECT overpaid_amount, underpaid_amount FROM customers WHERE id = ?`. -/
def findCustomer (cs : List Customer) (cid : Nat) : Option Customer :=
  cs.find? (fun c => c.id == cid)

/-- SQL `SELECT * FROM sales WHERE id = ?`. -/
def findSale (ss : List Sale) (sid : Nat) : Option Sale :=
  ss.find? (fun s => s.id == sid)

/-- SQL `SELECT * FROM sale_items WHERE sale_id = ?`. -/
def itemsOfSale (si : List SaleItem) (sid : Nat) : List SaleItem :=
  si.filter (fun it => it.sale_id == sid)

/-- SQL `UPDATE products SET qty = ? WHERE id = ?` (sales.js lines 196-199). -/
def updateQty (ps : List Product) (pid : Nat) (newQty : ℚ) : List Product :=
  ps.map (fun p => if p.id = pid then { p with qty := newQty } else p)

/-- SQL `UPDATE products SET qty = qty + ? WHERE id = ?` (sales.js lines 303-308). -/
def incQty (ps : List Product) (pid : Nat) (dq : ℚ) : List Product :=
  ps.map (fun p => if p.id = pid then { p with qty := p.qty + dq } else p)

/-- SQL `UPDATE customers SET overpaid_amount = ?, underpaid_amount = ? WHERE id = ?`
with the `Math.max(0, ...)` clamps applied at the call sites
(sales.js lines 238-241 and 343-346). -/
def updateCustomerBalance (cs : List Customer) (cid : Nat) (ov un : ℚ) :
    List Customer :=
  cs.map (fun c =>
    if c.id = cid then
      { c with
        overpaid_amount := mathMax 0 ov
        underpaid_amount := mathMax 0 un }
    else c)

/-- express-validator checks on `POST /api/sales` (sales.js lines 12-18):
at least one item, integer quantities ≥ 1, non-negative amounts. -/
def validateSale (r : SaleRequest) : Bool :=
  decide (1 ≤ r.items.length) &&
  r.items.all (fun i =>
    decide (1 ≤ i.product_id) && (i.qty.den == 1) && decide (1 ≤ i.qty)) &&
  decide (0 ≤ r.total_amount) && decide (0 ≤ r.paid_amount)

/-- The stock-check loop of sale creation (sales.js lines 115-148): for each
line item, read the product row; on a missing product fail with that id
(404 fast path); otherwise accumulate an `out_of_stock` entry whenever the
available quantity is below the requested one, and record the product
snapshot with the requested quantity in `productData`. -/
def scanItems (ps : List Product) : List ReqItem →
    Except Nat (List OOSItem × List ProdReq)
  | [] => .ok ([], [])
  | item :: rest =>
    match findProduct ps item.product_id with
    | none => .error item.product_id
    | some p =>
      match scanItems ps rest with
      | .error e => .error e
      | .ok (oos, pd) =>
        let oos2 :=
          if p.qty < item.qty then
            ({ product_id := p.id
               product_name := p.name
               available_qty := p.qty
               requested_qty := item.qty } : OOSItem) :: oos
          else oos
        .ok (oos2, ({ prod := p, requested_qty := item.qty } : ProdReq) :: pd)

/-- Derivation of `payment_status` (sales.js lines 160-166). -/
def derivePaymentStatus (total_amount paid_amount : ℚ) : PaymentStatus :=
  if paid_amount > total_amount then .overpaid
  else if paid_amount < total_amount then .underpaid
  else .paid

/-- The quantity-update loop of sale creation (sales.js lines 179-199): for
each line item, write `qty := snapshot qty − requested qty` where the
snapshot was read before any write. -/
def applySaleWrites (ps : List Product) (pd : List ProdReq) : List Product :=
  pd.foldl (fun acc e => updateQty acc e.prod.id (e.prod.qty - e.requested_qty)) ps

/-- Balance reconciliation on sale creation (sales.js lines 209-233):
a surplus first reduces an existing underpaid amount, the remainder adds to
the overpaid amount; a deficit is handled symmetrically. -/
def reconcile (status : PaymentStatus) (total_amount paid_amount : ℚ)
    (currentOverpaid currentUnderpaid : ℚ) : ℚ × ℚ :=
  match status with
  | .overpaid =>
    let overpaidAmount := paid_amount - total_amount
    if currentUnderpaid > 0 then
      let reduction := mathMin currentUnderpaid overpaidAmount
      (currentOverpaid + (overpaidAmount - reduction), currentUnderpaid - reduction)
    else
      (currentOverpaid + overpaidAmount, currentUnderpaid)
  | .underpaid =>
    let underpaidAmount := total_amount - paid_amount
    if currentOverpaid > 0 then
      let reduction := mathMin currentOverpaid underpaidAmount
      (currentOverpaid - reduction, currentUnderpaid + (underpaidAmount - reduction))
    else
      (currentOverpaid, currentUnderpaid + underpaidAmount)
  | .paid => (currentOverpaid, currentUnderpaid)

/-- Balance reversal on sale deletion (sales.js lines 317-341): subtract the
sale's recorded surplus from the overpaid amount first, a shortfall spills
into the underpaid amount; symmetrically for a recorded deficit. -/
def reverseBalance (status : PaymentStatus) (total_amount paid_amount : ℚ)
    (currentOverpaid currentUnderpaid : ℚ) : ℚ × ℚ :=
  match status with
  | .overpaid =>
    let overpaidAmount := paid_amount - total_amount
    if currentOverpaid ≥ overpaidAmount then
      (currentOverpaid - overpaidAmount, currentUnderpaid)
    else
      (0, currentUnderpaid + (overpaidAmount - currentOverpaid))
  | .underpaid =>
    let underpaidAmount := total_amount - paid_amount
    if currentUnderpaid ≥ underpaidAmount then
      (currentOverpaid, currentUnderpaid - underpaidAmount)
    else
      (currentOverpaid + (underpaidAmount - currentUnderpaid), 0)
  | .paid => (currentOverpaid, currentUnderpaid)

/-- Fallback `customer_name || 'Normal Customer'` (sales.js line 172): a missing or
empty (falsy) name falls back to the default. -/
def fallbackName : Option String → String
  | some s => if s = "" then "Normal Customer" else s
  | none => "Normal Customer"

/-- JavaScript truthiness of `customer_id` (`if (customer_id)`,
sales.js line 202 and line 311): absent, null or 0 are falsy. -/
def truthyId : Option Nat → Option Nat
  | some cid => if cid = 0 then none else some cid
  | none => none

/-- Function `logActivity` (logger.js lines 17-43): the INSERT into `activity_logs`
is wrapped in try/catch, so a failed insert writes nothing and the failure
never propagates.  `insertOk` is whether the insert itself succeeds; the
returned list is the rows actually written. -/
def logActivity (insertOk : Bool) (row : LogRow) : List LogRow :=
  if insertOk then [row] else []

/-- The `sales` row inserted by sale creation (sales.js lines 169-174). -/
def saleRow (db : DB) (r : SaleRequest) : Sale :=
  { id := db.nextSaleId
    customer_id := r.customer_id
    customer_name := fallbackName r.customer_name
    total_amount := r.total_amount
    paid_amount := r.paid_amount
    payment_status := derivePaymentStatus r.total_amount r.paid_amount
    notes := r.notes }

/-- The `sale_items` rows inserted by sale creation (sales.js lines 180-192). -/
def saleItemsRows (saleId : Nat) (pd : List ProdReq) : List SaleItem :=
  pd.map (fun e =>
    { sale_id := saleId
      product_id := e.prod.id
      product_name := e.prod.name
      qty := e.requested_qty
      unit_price := e.prod.sale_price
      subtotal := e.requested_qty * e.prod.sale_price })

/-- The customers table after the balance-reconciliation step of sale
creation (sales.js lines 202-243): skipped for a falsy `customer_id` or a
missing customer row. -/
def commitCustomers (db : DB) (r : SaleRequest) : List Customer :=
  match truthyId r.customer_id with
  | none => db.customers
  | some cid =>
    match findCustomer db.customers cid with
    | none => db.customers
    | some c =>
      let b := reconcile (derivePaymentStatus r.total_amount r.paid_amount)
        r.total_amount r.paid_amount c.overpaid_amount c.underpaid_amount
      updateCustomerBalance db.customers cid b.1 b.2

/-- The committed database state of a successful sale creation. -/
def commitSale (db : DB) (r : SaleRequest) (pd : List ProdReq) : DB :=
  { products := applySaleWrites db.products pd
    customers := commitCustomers db r
    sales := db.sales ++ [saleRow db r]
    sale_items := db.sale_items ++ saleItemsRows db.nextSaleId pd
    nextSaleId := db.nextSaleId + 1 }

/-- The audit row written by a successful sale creation
(sales.js line 260: `logSale(req.user, 'CREATE', saleId, null, saleData,
'success', null, req.ip)`). -/
def createLogRow (user : String) (db : DB) (r : SaleRequest)
    (pd : List ProdReq) : LogRow :=
  { username := user
    action := "CREATE"
    table_name := "sales"
    record_id := some db.nextSaleId
    old_data := none
    new_data := some (.saleData (saleRow db r) (saleItemsRows db.nextSaleId pd))
    status := "success"
    error_message := none }

/-- The `POST /api/sales` handler (sales.js lines 103-272): validation,
stock-check loop, out-of-stock early return, sale and item insertion,
quantity decrement loop, customer-balance reconciliation, commit, audit log.
`user` is `req.user.username`; `logOk` is whether the audit INSERT itself
succeeds. -/
def createSale (user : String) (logOk : Bool) (db : DB) (r : SaleRequest) :
    CreateOutcome :=
  if validateSale r = false then ⟨db, .validationError, []⟩
  else
    match scanItems db.products r.items with
    | .error pid => ⟨db, .productNotFound pid, []⟩
    | .ok (outOfStockItems, productData) =>
      if outOfStockItems ≠ [] then ⟨db, .outOfStock outOfStockItems, []⟩
      else
        ⟨commitSale db r productData, .created db.nextSaleId,
          logActivity logOk (createLogRow user db r productData)⟩

/-- The restock loop of sale deletion (sales.js lines 303-308):
`UPDATE products SET qty = qty + ?` for each item, in order. -/
def restock (ps : List Product) (items : List SaleItem) : List Product :=
  items.foldl (fun acc it => incQty acc it.product_id it.qty) ps

/-- The customers table after the balance-reversal step of sale deletion
(sales.js lines 311-348): skipped for a falsy `customer_id` or a missing
customer row. -/
def deleteCustomers (db : DB) (sale : Sale) : List Customer :=
  match truthyId sale.customer_id with
  | none => db.customers
  | some cid =>
    match findCustomer db.customers cid with
    | none => db.customers
    | some c =>
      let b := reverseBalance sale.payment_status sale.total_amount
        sale.paid_amount c.overpaid_amount c.underpaid_amount
      updateCustomerBalance db.customers cid b.1 b.2

/-- The committed database state of a successful sale deletion. -/
def deleteCommit (db : DB) (saleId : Nat) (sale : Sale) : DB :=
  { products := restock db.products (itemsOfSale db.sale_items saleId)
    customers := deleteCustomers db sale
    sales := db.sales.filter (fun s => !(s.id == saleId))
    sale_items := db.sale_items.filter (fun it => !(it.sale_id == saleId))
    nextSaleId := db.nextSaleId }

/-- The audit row written by a successful sale deletion (sales.js line 358:
`logSale(req.user, 'DELETE', saleId, saleDataForLog, null, 'success',
null, req.ip)`). -/
def deleteLogRow (user : String) (db : DB) (saleId : Nat) (sale : Sale) :
    LogRow :=
  { username := user
    action := "DELETE"
    table_name := "sales"
    record_id := some saleId
    old_data := some (.saleData sale (itemsOfSale db.sale_items saleId))
    new_data := none
    status := "success"
    error_message := none }

/-- The `DELETE /api/sales/:id` handler (sales.js lines 275-368): read the
sale and its items, restock each product, reverse the balance
reconciliation, delete the sale row (cascading to its items), audit log. -/
def deleteSale (user : String) (logOk : Bool) (db : DB) (saleId : Nat) :
    DeleteOutcome :=
  match findSale db.sales saleId with
  | none => ⟨db, .notFound, []⟩
  | some sale =>
    ⟨deleteCommit db saleId sale, .deleted,
      logActivity logOk (deleteLogRow user db saleId sale)⟩

/-- Body of a `PUT /products/:id` request.  The handler destructures only
name, description, original_price, sale_price and unit_id from `req.body`;
the `qty` field below models a quantity the client may also have supplied,
which the handler never reads. -/
structure ProductUpdateBody where
  name : String
  description : Option String
  original_price : ℚ
  sale_price : ℚ
  unit_id : Option Nat
  qty : Option ℚ
deriving DecidableEq, Repr

/-- Response of the `PUT /products/:id` handler. -/
inductive UpdateResponse
  | notFound
  | nameConflict
  | updated
deriving DecidableEq, Repr

/-- The `PUT /products/:id` handler of the products route ("Update product
(qty cannot be updated here)"): 404 on a missing product, 400 on a name
conflict with another product, otherwise
`UPDATE products SET name = ?, description = ?, original_price = ?,
sale_price = ?, unit_id = ? WHERE id = ?`. -/
def updateProduct (ps : List Product) (productId : Nat)
    (b : ProductUpdateBody) : List Product × UpdateResponse :=
  match findProduct ps productId with
  | none => (ps, .notFound)
  | some existing =>
    if b.name ≠ "" ∧ b.name ≠ existing.name ∧
        (ps.any (fun p => p.name == b.name && p.id != productId)) = true then
      (ps, .nameConflict)
    else
      (ps.map (fun p =>
        if p.id = productId then
          { p with
            name := b.name
            description := b.description
            original_price := b.original_price
            sale_price := b.sale_price
            unit_id := b.unit_id }
        else p), .updated)

namespace License

/-- Primes used per position within a 4-digit group
(license-generator.js line 28). -/
def primes : List Nat := [7, 11, 13, 17]

/-- Per-digit transform (license-generator.js lines 31-39).  The digit at
index `i` of the cleaned 16-digit string lies in group `i / 4` at position
`i % 4`; it is mapped to `(digit * prime + groupIndex * 3 + position * 2) % 10`. -/
def transformDigit (i d : Nat) : Nat :=
  (d * primes.getD (i % 4) 0 + ((i / 4) * 3 + (i % 4) * 2)) % 10

/-- A well-formed cleaned device number: exactly 16 decimal digits
(license-generator.js line 15: the regex test). -/
def wellFormed (digits : List Nat) : Prop :=
  digits.length = 16 ∧ ∀ d ∈ digits, d < 10

instance : DecidablePred wellFormed := fun digits => by
  unfold wellFormed; infer_instance

/-- Function `generate` (license-generator.js lines 11-43) on the dash-stripped digit
string: the empty list models the empty string returned for malformed input. -/
def generate (digits : List Nat) : List Nat :=
  if wellFormed digits then
    (List.range 16).map (fun i => transformDigit i (digits.getD i 0))
  else []

/-- Function `validate` (license-generator.js lines 51-67) on dash-stripped digit
strings: falsy (empty) inputs are rejected, then the freshly generated key
is compared with the supplied one. -/
def validate (deviceDigits licenseDigits : List Nat) : Bool :=
  if deviceDigits = [] ∨ licenseDigits = [] then false
  else
    let generated := generate deviceDigits
    if generated = [] then false
    else decide (generated = licenseDigits)

end License


/-- Pointwise form of one iteration of the quantity-update loop of sale
creation: the write `qty := snapshot qty - requested qty` hits the products
whose id matches the line item's product. -/
def createStep (y : Product) (e : ProdReq) : Product :=
  if y.id = e.prod.id then { y with qty := e.prod.qty - e.requested_qty } else y

/-- Pointwise form of one iteration of the restock loop of sale deletion:
`qty := qty + item qty` on the matching product. -/
def restockStep (y : Product) (it : SaleItem) : Product :=
  if y.id = it.product_id then { y with qty := y.qty + it.qty } else y

/-- Total quantity restocked onto product `pid` by a list of sale items. -/
def sumQtyFor (items : List SaleItem) (pid : Nat) : ℚ :=
  (items.map (fun it => if it.product_id = pid then it.qty else 0)).sum

/-- Example product row: "A" with 5 units in stock. -/
def prodA : Product := ⟨1, "A", 5, 2, 3, none, none⟩

/-- Example customer row with an outstanding underpaid balance of 20. -/
def custC : Customer := ⟨7, "C", 0, 20⟩

/-- Example database: one product, one customer, no sales yet. -/
def dbEx : DB := ⟨[prodA], [custC], [], [], 1⟩

/-- Example request: 2 units of product 1, exactly paid. -/
def reqPaidEx : SaleRequest := ⟨[⟨1, 2⟩], none, none, 6, 6, none⟩

/-- Example request: 2 units of product 1 for customer 7, overpaid by 30. -/
def reqOverpaidEx : SaleRequest := ⟨[⟨1, 2⟩], some 7, none, 50, 80, none⟩

/-- Example request asking for 7 units when only 5 are in stock. -/
def reqOutOfStockEx : SaleRequest := ⟨[⟨1, 7⟩], none, none, 7, 7, none⟩

/-- Example request with two line items for the same product (2 and 3 units). -/
def reqDupEx : SaleRequest := ⟨[⟨1, 2⟩, ⟨1, 3⟩], none, none, 15, 15, none⟩

/-- Example request with two line items for the same product (3 and 4 units). -/
def reqDup2Ex : SaleRequest := ⟨[⟨1, 3⟩, ⟨1, 4⟩], none, none, 21, 21, none⟩

/-- Example mid-flight state: the sale of `reqOverpaidEx` recorded, product
stock already decremented to 3, customer balance already reconciled to
overpaid 10 / underpaid 0. -/
def saleMidEx : Sale := ⟨1, some 7, "Normal Customer", 50, 80, .overpaid, none⟩

/-- Example sale item belonging to `saleMidEx`. -/
def itemMidEx : SaleItem := ⟨1, 1, "A", 2, 3, 6⟩

/-- Example database state right after committing `reqOverpaidEx` on `dbEx`. -/
def dbMidEx : DB :=
  ⟨[⟨1, "A", 3, 2, 3, none, none⟩], [⟨7, "C", 10, 0⟩], [saleMidEx], [itemMidEx], 2⟩

theorem derive_eq_paid_iff (t p : ℚ) :
    derivePaymentStatus t p = .paid ↔ p = t := by
  unfold derivePaymentStatus
  split_ifs with h1 h2 <;> constructor <;> intro h <;>
    first | rfl | linarith | simp_all

theorem derive_eq_overpaid_iff (t p : ℚ) :
    derivePaymentStatus t p = .overpaid ↔ t < p := by
  unfold derivePaymentStatus
  split_ifs with h1 h2 <;> constructor <;> intro h <;>
    first | rfl | assumption | linarith | simp_all

theorem derive_eq_underpaid_iff (t p : ℚ) :
    derivePaymentStatus t p = .underpaid ↔ p < t := by
  unfold derivePaymentStatus
  split_ifs with h1 h2 <;> constructor <;> intro h <;>
    first | rfl | assumption | linarith | simp_all

/-- C7: for every created sale (the row appended to the sales table by a
committed `POST /api/sales`), the stored payment_status is paid iff
paid_amount equals total_amount, overpaid iff it is strictly greater, and
underpaid iff it is strictly less. -/
theorem C7_payment_status_iff (user : String) (lg : Bool) (db : DB)
    (r : SaleRequest) (pd : List ProdReq)
    (hv : validateSale r = true)
    (hscan : scanItems db.products r.items = .ok ([], pd)) :
    ∃ s : Sale,
      ((createSale user lg db r).db.sales).getLast? = some s ∧
      (createSale user lg db r).response = .created db.nextSaleId ∧
      s.total_amount = r.total_amount ∧ s.paid_amount = r.paid_amount ∧
      (s.payment_status = .paid ↔ s.paid_amount = s.total_amount) ∧
      (s.payment_status = .overpaid ↔ s.total_amount < s.paid_amount) ∧
      (s.payment_status = .underpaid ↔ s.paid_amount < s.total_amount) := by
  refine ⟨saleRow db r, ?_, ?_, rfl, rfl, ?_, ?_, ?_⟩
  · simp [createSale, hv, hscan, commitSale]
  · simp [createSale, hv, hscan]
  · exact derive_eq_paid_iff r.total_amount r.paid_amount
  · exact derive_eq_overpaid_iff r.total_amount r.paid_amount
  · exact derive_eq_underpaid_iff r.total_amount r.paid_amount

theorem C7_payment_status_iff_witness :
    ∃ s : Sale,
      ((createSale "u" true dbEx reqPaidEx).db.sales).getLast? = some s ∧
      (createSale "u" true dbEx reqPaidEx).response = .created dbEx.nextSaleId ∧
      s.total_amount = reqPaidEx.total_amount ∧
      s.paid_amount = reqPaidEx.paid_amount ∧
      (s.payment_status = .paid ↔ s.paid_amount = s.total_amount) ∧
      (s.payment_status = .overpaid ↔ s.total_amount < s.paid_amount) ∧
      (s.payment_status = .underpaid ↔ s.paid_amount < s.total_amount) :=
  C7_payment_status_iff "u" true dbEx reqPaidEx [⟨prodA, 2⟩] (by decide) (by rfl)

/-- C10: the product update endpoint never changes any product's qty (nor
its id): whatever the request body (including a supplied qty value, which
the handler never reads) and whatever the response, every product's
(id, qty) pair is the same before and after. -/
theorem C10_product_update_preserves_qty (ps : List Product)
    (productId : Nat) (b : ProductUpdateBody) :
    ((updateProduct ps productId b).1).map (fun p => (p.id, p.qty)) =
      ps.map (fun p => (p.id, p.qty)) := by
  unfold updateProduct
  split
  · rfl
  · split
    · rfl
    · dsimp only
      rw [List.map_map]
      apply List.map_congr_left
      intro a _
      by_cases hid : a.id = productId <;> simp [hid, Function.comp]


theorem transformDigit_inj :
    ∀ i < 16, ∀ a < 10, ∀ b < 10,
      License.transformDigit i a = License.transformDigit i b → a = b := by decide

theorem transformDigit_surj :
    ∀ i < 16, ∀ y < 10, ∃ a, a < 10 ∧ License.transformDigit i a = y := by decide

theorem license_generate_eq (digits : List Nat) (h : License.wellFormed digits) :
    License.generate digits =
      (List.range 16).map (fun i => License.transformDigit i (digits.getD i 0)) := by
  unfold License.generate
  rw [if_pos h]

theorem license_generate_length (digits : List Nat)
    (h : License.wellFormed digits) : (License.generate digits).length = 16 := by
  rw [license_generate_eq digits h]; simp

theorem license_generate_getD (digits : List Nat) (h : License.wellFormed digits)
    (i : Nat) (hi : i < 16) :
    (License.generate digits).getD i 0 =
      License.transformDigit i (digits.getD i 0) := by
  rw [license_generate_eq digits h]
  rw [List.getD_eq_getElem?_getD, List.getElem?_map, List.getElem?_range hi]
  rfl

/-- C9: license validation is a pure deterministic function of the device
number and the key, and the key scheme is a reversible arithmetic
transform: validate(d, generate(d)) holds for every well-formed 16-digit
device number, generate is injective on well-formed device numbers, and
each per-digit map digit ↦ (digit * prime + offset) % 10 (primes
7, 11, 13, 17) is injective and surjective on the digits 0-9. -/
theorem C9_license_scheme :
    (∀ digits : List Nat, License.wellFormed digits →
      License.validate digits (License.generate digits) = true) ∧
    (∀ d1 d2 : List Nat, License.wellFormed d1 → License.wellFormed d2 →
      License.generate d1 = License.generate d2 → d1 = d2) ∧
    (∀ i < 16, ∀ a < 10, ∀ b < 10,
      License.transformDigit i a = License.transformDigit i b → a = b) ∧
    (∀ i < 16, ∀ y < 10, ∃ a, a < 10 ∧ License.transformDigit i a = y) := by
  refine ⟨?_, ?_, transformDigit_inj, transformDigit_surj⟩
  · intro digits h
    have hlen := license_generate_length digits h
    have hgne : License.generate digits ≠ [] := by
      intro he; rw [he] at hlen; simp at hlen
    have hdne : digits ≠ [] := by
      intro he; rcases h with ⟨hl, _⟩; rw [he] at hl; simp at hl
    unfold License.validate
    rw [if_neg]
    · dsimp only
      rw [if_neg hgne]
      simp
    · push_neg
      exact ⟨hdne, hgne⟩
  · intro d1 d2 h1 h2 heq
    rcases h1 with ⟨hl1, hd1⟩
    rcases h2 with ⟨hl2, hd2⟩
    apply List.ext_getElem (by rw [hl1, hl2])
    intro i ha hb
    have hi : i < 16 := by rw [hl1] at ha; exact ha
    have e1 := license_generate_getD d1 ⟨hl1, hd1⟩ i hi
    have e2 := license_generate_getD d2 ⟨hl2, hd2⟩ i hi
    rw [heq] at e1
    have et : License.transformDigit i (d1.getD i 0) =
        License.transformDigit i (d2.getD i 0) := by
      rw [← e1, ← e2]
    have g1 : d1.getD i 0 = d1[i] := by
      rw [List.getD_eq_getElem?_getD, List.getElem?_eq_getElem ha]; rfl
    have g2 : d2.getD i 0 = d2[i] := by
      rw [List.getD_eq_getElem?_getD, List.getElem?_eq_getElem hb]; rfl
    have b1 : d1[i] < 10 := hd1 _ (List.getElem_mem ha)
    have b2 : d2[i] < 10 := hd2 _ (List.getElem_mem hb)
    have hres := transformDigit_inj i hi (d1.getD i 0) (by rw [g1]; exact b1)
      (d2.getD i 0) (by rw [g2]; exact b2) et
    rw [g1, g2] at hres
    exact hres

theorem C9_license_scheme_witness :
    License.wellFormed [1, 1, 1, 1, 2, 2, 2, 2, 3, 3, 3, 3, 4, 4, 4, 4] ∧
    License.validate [1, 1, 1, 1, 2, 2, 2, 2, 3, 3, 3, 3, 4, 4, 4, 4]
      (License.generate [1, 1, 1, 1, 2, 2, 2, 2, 3, 3, 3, 3, 4, 4, 4, 4]) = true :=
  ⟨by decide, C9_license_scheme.1 _ (by decide)⟩


theorem mathMin_eq_min (a b : ℚ) : mathMin a b = min a b := by
  simp [mathMin, min_def]

theorem mathMax_eq_max (a b : ℚ) : mathMax a b = max a b := by
  simp [mathMax, max_def]

theorem mathMax_zero_nonneg (x : ℚ) : 0 ≤ mathMax 0 x := by
  unfold mathMax; split_ifs <;> linarith

theorem mathMax_zero_of_nonneg (x : ℚ) (hx : 0 ≤ x) : mathMax 0 x = x := by
  unfold mathMax; rw [if_pos hx]

theorem mathMin_le_left (a b : ℚ) : mathMin a b ≤ a := by
  unfold mathMin; split_ifs <;> linarith

theorem mathMin_le_right (a b : ℚ) : mathMin a b ≤ b := by
  unfold mathMin; split_ifs <;> linarith

theorem reconcile_overpaid_eq (t p ov un : ℚ) (hun : 0 ≤ un)
    (hs : 0 ≤ p - t) :
    reconcile .overpaid t p ov un =
      (ov + ((p - t) - mathMin un (p - t)), un - mathMin un (p - t)) := by
  unfold reconcile mathMin
  dsimp only
  split_ifs <;> simp only [Prod.mk.injEq] <;> constructor <;>
    first | trivial | linarith

theorem reconcile_underpaid_eq (t p ov un : ℚ) (hov : 0 ≤ ov)
    (hs : 0 ≤ t - p) :
    reconcile .underpaid t p ov un =
      (ov - mathMin ov (t - p), un + ((t - p) - mathMin ov (t - p))) := by
  unfold reconcile mathMin
  dsimp only
  split_ifs <;> simp only [Prod.mk.injEq] <;> constructor <;>
    first | trivial | linarith

theorem reverseBalance_overpaid_eq (t p ov un : ℚ) :
    reverseBalance .overpaid t p ov un =
      (mathMax (ov - (p - t)) 0, un + mathMax ((p - t) - ov) 0) := by
  unfold reverseBalance mathMax
  dsimp only
  split_ifs <;> simp only [Prod.mk.injEq] <;> constructor <;>
    first | trivial | linarith

theorem reverseBalance_underpaid_eq (t p ov un : ℚ) :
    reverseBalance .underpaid t p ov un =
      (ov + mathMax ((t - p) - un) 0, mathMax (un - (t - p)) 0) := by
  unfold reverseBalance mathMax
  dsimp only
  split_ifs <;> simp only [Prod.mk.injEq] <;> constructor <;>
    first | trivial | linarith

theorem find?_map_pres {α : Type} (f : α → α) (q : α → Bool)
    (hf : ∀ a, q (f a) = q a) (l : List α) :
    (l.map f).find? q = (l.find? q).map f := by
  induction l with
  | nil => rfl
  | cons a t ih =>
    simp only [List.map_cons]
    by_cases h : q a = true
    · rw [List.find?_cons_of_pos _ (by rw [hf]; exact h),
        List.find?_cons_of_pos _ h]
      rfl
    · rw [List.find?_cons_of_neg _ (by rw [hf]; exact h),
        List.find?_cons_of_neg _ h]
      exact ih

theorem findCustomer_updateCustomerBalance (cs : List Customer) (cid : Nat)
    (ov un : ℚ) (c : Customer) (hc : findCustomer cs cid = some c) :
    findCustomer (updateCustomerBalance cs cid ov un) cid =
      some { c with
             overpaid_amount := mathMax 0 ov
             underpaid_amount := mathMax 0 un } := by
  have hid : c.id = cid := by
    have h2 := List.find?_some hc
    simpa using h2
  unfold updateCustomerBalance findCustomer
  rw [find?_map_pres _ _ ?hpres cs]
  · unfold findCustomer at hc
    rw [hc]
    simp [hid]
  case hpres =>
    intro a
    by_cases h : a.id = cid <;> simp [h]


theorem not_both_pos_iff {a b : ℚ} (ha : 0 ≤ a) (hb : 0 ≤ b) :
    ¬(0 < a ∧ 0 < b) ↔ (a = 0 ∨ b = 0) := by
  constructor
  · intro h
    rcases eq_or_lt_of_le ha with h1 | h1
    · exact Or.inl h1.symm
    · rcases eq_or_lt_of_le hb with h2 | h2
      · exact Or.inr h2.symm
      · exact absurd ⟨h1, h2⟩ h
  · rintro (h | h) ⟨h1, h2⟩ <;> linarith

theorem reconcile_invariant (t p ov un : ℚ) (hov : 0 ≤ ov) (hun : 0 ≤ un)
    (hinv : ov = 0 ∨ un = 0) :
    0 ≤ (reconcile (derivePaymentStatus t p) t p ov un).1 ∧
    0 ≤ (reconcile (derivePaymentStatus t p) t p ov un).2 ∧
    ((reconcile (derivePaymentStatus t p) t p ov un).1 = 0 ∨
     (reconcile (derivePaymentStatus t p) t p ov un).2 = 0) := by
  unfold derivePaymentStatus
  split_ifs with h1 h2
  · rw [reconcile_overpaid_eq t p ov un hun (by linarith)]
    dsimp only
    have hmr := mathMin_le_right un (p - t)
    have hml := mathMin_le_left un (p - t)
    refine ⟨by linarith, by linarith, ?_⟩
    rcases hinv with h0 | h0
    · unfold mathMin
      split_ifs with hc
      · right; linarith
      · left; linarith
    · subst h0
      right
      unfold mathMin
      split_ifs <;> linarith
  · rw [reconcile_underpaid_eq t p ov un hov (by linarith)]
    dsimp only
    have hmr := mathMin_le_right ov (t - p)
    have hml := mathMin_le_left ov (t - p)
    refine ⟨by linarith, by linarith, ?_⟩
    rcases hinv with h0 | h0
    · subst h0
      left
      unfold mathMin
      split_ifs <;> linarith
    · unfold mathMin
      split_ifs with hc
      · left; linarith
      · right; linarith
  · exact ⟨hov, hun, hinv⟩

theorem reverseBalance_invariant (t p ov un : ℚ) (hov : 0 ≤ ov)
    (hun : 0 ≤ un) (hinv : ov = 0 ∨ un = 0) :
    0 ≤ (reverseBalance (derivePaymentStatus t p) t p ov un).1 ∧
    0 ≤ (reverseBalance (derivePaymentStatus t p) t p ov un).2 ∧
    ((reverseBalance (derivePaymentStatus t p) t p ov un).1 = 0 ∨
     (reverseBalance (derivePaymentStatus t p) t p ov un).2 = 0) := by
  unfold derivePaymentStatus
  split_ifs with h1 h2
  · rw [reverseBalance_overpaid_eq]
    dsimp only
    refine ⟨?_, ?_, ?_⟩
    · unfold mathMax; split_ifs <;> linarith
    · unfold mathMax; split_ifs <;> linarith
    · rcases hinv with h0 | h0
      · left; unfold mathMax; split_ifs <;> linarith
      · subst h0
        unfold mathMax
        split_ifs <;> first | (left; linarith) | (right; linarith)
  · rw [reverseBalance_underpaid_eq]
    dsimp only
    refine ⟨?_, ?_, ?_⟩
    · unfold mathMax; split_ifs <;> linarith
    · unfold mathMax; split_ifs <;> linarith
    · rcases hinv with h0 | h0
      · subst h0
        unfold mathMax
        split_ifs <;> first | (left; linarith) | (right; linarith)
      · right; unfold mathMax; split_ifs <;> linarith
  · exact ⟨hov, hun, hinv⟩

/-- C2: on sale creation with a present (truthy) customer_id and an
existing customer, an overpaid sale's surplus first cancels the existing
underpaid_amount up to its value and only the remainder is added to
overpaid_amount; an underpaid sale's deficit symmetrically first cancels
the existing overpaid_amount; both written balances are clamped to be
non-negative. -/
theorem C2_balance_reconciliation (user : String) (lg : Bool) (db : DB)
    (r : SaleRequest) (pd : List ProdReq) (cid : Nat) (c : Customer)
    (hv : validateSale r = true)
    (hscan : scanItems db.products r.items = .ok ([], pd))
    (hcid : truthyId r.customer_id = some cid)
    (hc : findCustomer db.customers cid = some c)
    (hov : 0 ≤ c.overpaid_amount) (hun : 0 ≤ c.underpaid_amount) :
    ∃ c2, findCustomer (createSale user lg db r).db.customers cid = some c2 ∧
      0 ≤ c2.overpaid_amount ∧ 0 ≤ c2.underpaid_amount ∧
      (r.total_amount < r.paid_amount →
        c2.overpaid_amount = c.overpaid_amount +
          ((r.paid_amount - r.total_amount) -
            mathMin c.underpaid_amount (r.paid_amount - r.total_amount)) ∧
        c2.underpaid_amount = c.underpaid_amount -
          mathMin c.underpaid_amount (r.paid_amount - r.total_amount)) ∧
      (r.paid_amount < r.total_amount →
        c2.overpaid_amount = c.overpaid_amount -
          mathMin c.overpaid_amount (r.total_amount - r.paid_amount) ∧
        c2.underpaid_amount = c.underpaid_amount +
          ((r.total_amount - r.paid_amount) -
            mathMin c.overpaid_amount (r.total_amount - r.paid_amount))) := by
  have hdb : (createSale user lg db r).db = commitSale db r pd := by
    simp [createSale, hv, hscan]
  rw [hdb]
  have hcust : (commitSale db r pd).customers =
      updateCustomerBalance db.customers cid
        (reconcile (derivePaymentStatus r.total_amount r.paid_amount)
          r.total_amount r.paid_amount c.overpaid_amount c.underpaid_amount).1
        (reconcile (derivePaymentStatus r.total_amount r.paid_amount)
          r.total_amount r.paid_amount c.overpaid_amount c.underpaid_amount).2 := by
    show commitCustomers db r = _
    unfold commitCustomers
    rw [hcid]
    dsimp only
    rw [hc]
  rw [hcust]
  refine ⟨_, findCustomer_updateCustomerBalance _ _ _ _ _ hc,
    mathMax_zero_nonneg _, mathMax_zero_nonneg _, ?_, ?_⟩
  · intro hlt
    have hst : derivePaymentStatus r.total_amount r.paid_amount = .overpaid :=
      (derive_eq_overpaid_iff _ _).mpr hlt
    rw [hst, reconcile_overpaid_eq _ _ _ _ hun (by linarith)]
    dsimp only
    constructor
    · rw [mathMax_zero_of_nonneg _ (by
        have := mathMin_le_right c.underpaid_amount
          (r.paid_amount - r.total_amount)
        linarith)]
    · rw [mathMax_zero_of_nonneg _ (by
        have := mathMin_le_left c.underpaid_amount
          (r.paid_amount - r.total_amount)
        linarith)]
  · intro hlt
    have hst : derivePaymentStatus r.total_amount r.paid_amount = .underpaid :=
      (derive_eq_underpaid_iff _ _).mpr hlt
    rw [hst, reconcile_underpaid_eq _ _ _ _ hov (by linarith)]
    dsimp only
    constructor
    · rw [mathMax_zero_of_nonneg _ (by
        have := mathMin_le_left c.overpaid_amount
          (r.total_amount - r.paid_amount)
        linarith)]
    · rw [mathMax_zero_of_nonneg _ (by
        have := mathMin_le_right c.overpaid_amount
          (r.total_amount - r.paid_amount)
        linarith)]

theorem C2_balance_reconciliation_witness :
    ∃ c2, findCustomer
        (createSale "u" true dbEx reqOverpaidEx).db.customers 7 = some c2 ∧
      0 ≤ c2.overpaid_amount ∧ 0 ≤ c2.underpaid_amount ∧
      (reqOverpaidEx.total_amount < reqOverpaidEx.paid_amount →
        c2.overpaid_amount = custC.overpaid_amount +
          ((reqOverpaidEx.paid_amount - reqOverpaidEx.total_amount) -
            mathMin custC.underpaid_amount
              (reqOverpaidEx.paid_amount - reqOverpaidEx.total_amount)) ∧
        c2.underpaid_amount = custC.underpaid_amount -
          mathMin custC.underpaid_amount
            (reqOverpaidEx.paid_amount - reqOverpaidEx.total_amount)) ∧
      (reqOverpaidEx.paid_amount < reqOverpaidEx.total_amount →
        c2.overpaid_amount = custC.overpaid_amount -
          mathMin custC.overpaid_amount
            (reqOverpaidEx.total_amount - reqOverpaidEx.paid_amount) ∧
        c2.underpaid_amount = custC.underpaid_amount +
          ((reqOverpaidEx.total_amount - reqOverpaidEx.paid_amount) -
            mathMin custC.overpaid_amount
              (reqOverpaidEx.total_amount - reqOverpaidEx.paid_amount))) :=
  C2_balance_reconciliation "u" true dbEx reqOverpaidEx [⟨prodA, 2⟩] 7 custC
    (by decide) (by rfl) (by rfl) (by rfl) (by decide) (by decide)


/-- C6: the customer-balance invariant (overpaid_amount ≥ 0,
underpaid_amount ≥ 0, never both strictly positive) holds for the customer
row written by the reconciliation step of every committed sale creation,
and by the reversal step of every sale deletion whose stored
payment_status is the one derived from its amounts, assuming the invariant
held before the operation. -/
theorem C6_balance_invariant :
    (∀ (user : String) (lg : Bool) (db : DB) (r : SaleRequest)
        (pd : List ProdReq) (cid : Nat) (c : Customer),
      validateSale r = true →
      scanItems db.products r.items = .ok ([], pd) →
      truthyId r.customer_id = some cid →
      findCustomer db.customers cid = some c →
      0 ≤ c.overpaid_amount → 0 ≤ c.underpaid_amount →
      ¬(0 < c.overpaid_amount ∧ 0 < c.underpaid_amount) →
      ∃ c2, findCustomer (createSale user lg db r).db.customers cid = some c2 ∧
        0 ≤ c2.overpaid_amount ∧ 0 ≤ c2.underpaid_amount ∧
        ¬(0 < c2.overpaid_amount ∧ 0 < c2.underpaid_amount)) ∧
    (∀ (user : String) (lg : Bool) (db : DB) (sid : Nat) (sale : Sale)
        (cid : Nat) (c : Customer),
      findSale db.sales sid = some sale →
      sale.payment_status =
        derivePaymentStatus sale.total_amount sale.paid_amount →
      truthyId sale.customer_id = some cid →
      findCustomer db.customers cid = some c →
      0 ≤ c.overpaid_amount → 0 ≤ c.underpaid_amount →
      ¬(0 < c.overpaid_amount ∧ 0 < c.underpaid_amount) →
      ∃ c2, findCustomer (deleteSale user lg db sid).db.customers cid = some c2 ∧
        0 ≤ c2.overpaid_amount ∧ 0 ≤ c2.underpaid_amount ∧
        ¬(0 < c2.overpaid_amount ∧ 0 < c2.underpaid_amount)) := by
  constructor
  · intro user lg db r pd cid c hv hscan hcid hc hov hun hinv
    have hdb : (createSale user lg db r).db = commitSale db r pd := by
      simp [createSale, hv, hscan]
    rw [hdb]
    have hcust : (commitSale db r pd).customers =
        updateCustomerBalance db.customers cid
          (reconcile (derivePaymentStatus r.total_amount r.paid_amount)
            r.total_amount r.paid_amount c.overpaid_amount c.underpaid_amount).1
          (reconcile (derivePaymentStatus r.total_amount r.paid_amount)
            r.total_amount r.paid_amount c.overpaid_amount
            c.underpaid_amount).2 := by
      show commitCustomers db r = _
      unfold commitCustomers
      rw [hcid]
      dsimp only
      rw [hc]
    rw [hcust]
    refine ⟨_, findCustomer_updateCustomerBalance _ _ _ _ _ hc,
      mathMax_zero_nonneg _, mathMax_zero_nonneg _, ?_⟩
    have hres := reconcile_invariant r.total_amount r.paid_amount
      c.overpaid_amount c.underpaid_amount hov hun
      ((not_both_pos_iff hov hun).mp hinv)
    rw [not_both_pos_iff (mathMax_zero_nonneg _) (mathMax_zero_nonneg _)]
    rcases hres.2.2 with h0 | h0
    · left; rw [h0]; simp [mathMax]
    · right; rw [h0]; simp [mathMax]
  · intro user lg db sid sale cid c hfind hst hcid hc hov hun hinv
    have hdb : (deleteSale user lg db sid).db = deleteCommit db sid sale := by
      simp [deleteSale, hfind]
    rw [hdb]
    have hcust : (deleteCommit db sid sale).customers =
        updateCustomerBalance db.customers cid
          (reverseBalance sale.payment_status sale.total_amount
            sale.paid_amount c.overpaid_amount c.underpaid_amount).1
          (reverseBalance sale.payment_status sale.total_amount
            sale.paid_amount c.overpaid_amount c.underpaid_amount).2 := by
      show deleteCustomers db sale = _
      unfold deleteCustomers
      rw [hcid]
      dsimp only
      rw [hc]
    rw [hcust]
    refine ⟨_, findCustomer_updateCustomerBalance _ _ _ _ _ hc,
      mathMax_zero_nonneg _, mathMax_zero_nonneg _, ?_⟩
    have hres := reverseBalance_invariant sale.total_amount sale.paid_amount
      c.overpaid_amount c.underpaid_amount hov hun
      ((not_both_pos_iff hov hun).mp hinv)
    rw [← hst] at hres
    rw [not_both_pos_iff (mathMax_zero_nonneg _) (mathMax_zero_nonneg _)]
    rcases hres.2.2 with h0 | h0
    · left; rw [h0]; simp [mathMax]
    · right; rw [h0]; simp [mathMax]

theorem C6_balance_invariant_witness :
    ∃ c2, findCustomer
        (createSale "u" true dbEx reqOverpaidEx).db.customers 7 = some c2 ∧
      0 ≤ c2.overpaid_amount ∧ 0 ≤ c2.underpaid_amount ∧
      ¬(0 < c2.overpaid_amount ∧ 0 < c2.underpaid_amount) :=
  C6_balance_invariant.1 "u" true dbEx reqOverpaidEx [⟨prodA, 2⟩] 7 custC
    (by decide) (by rfl) (by rfl) (by rfl) (by decide) (by decide) (by decide)


theorem scanItems_oos_mem (ps : List Product) (items : List ReqItem)
    (oos : List OOSItem) (pd : List ProdReq)
    (h : scanItems ps items = .ok (oos, pd)) :
    ∀ o ∈ oos, ∃ item ∈ items, ∃ p,
      findProduct ps item.product_id = some p ∧ p.qty < item.qty ∧
      o = ⟨p.id, p.name, p.qty, item.qty⟩ := by
  induction items generalizing oos pd with
  | nil =>
    simp only [scanItems] at h
    obtain ⟨h1, h2⟩ : ([] : List OOSItem) = oos ∧ ([] : List ProdReq) = pd := by
      simpa using h
    subst h1
    simp
  | cons item rest ih =>
    simp only [scanItems] at h
    cases hf : findProduct ps item.product_id with
    | none => rw [hf] at h; simp at h
    | some p =>
      rw [hf] at h
      cases hs : scanItems ps rest with
      | error e => rw [hs] at h; simp at h
      | ok pr =>
        obtain ⟨oosr, pdr⟩ := pr
        rw [hs] at h
        dsimp only at h
        by_cases hlt : p.qty < item.qty
        · rw [if_pos hlt] at h
          obtain ⟨h1, h2⟩ :
              ({ product_id := p.id, product_name := p.name,
                 available_qty := p.qty,
                 requested_qty := item.qty } : OOSItem) :: oosr = oos ∧
              ({ prod := p, requested_qty := item.qty } : ProdReq) :: pdr = pd := by
            simpa using h
          subst h1
          intro o ho
          rcases List.mem_cons.mp ho with rfl | ho2
          · exact ⟨item, List.mem_cons_self item rest, p, hf, hlt, rfl⟩
          · obtain ⟨it2, hm, p2, hfp, hl, he⟩ := ih oosr pdr (by rw [hs]) o ho2
            exact ⟨it2, List.mem_cons_of_mem item hm, p2, hfp, hl, he⟩
        · rw [if_neg hlt] at h
          obtain ⟨h1, h2⟩ : oosr = oos ∧
              ({ prod := p, requested_qty := item.qty } : ProdReq) :: pdr = pd := by
            simpa using h
          subst h1
          intro o ho
          obtain ⟨it2, hm, p2, hfp, hl, he⟩ := ih oosr pdr (by rw [hs]) o ho
          exact ⟨it2, List.mem_cons_of_mem item hm, p2, hfp, hl, he⟩

theorem scanItems_oos_complete (ps : List Product) (items : List ReqItem)
    (oos : List OOSItem) (pd : List ProdReq)
    (h : scanItems ps items = .ok (oos, pd)) :
    ∀ item ∈ items, ∀ p, findProduct ps item.product_id = some p →
      p.qty < item.qty → (⟨p.id, p.name, p.qty, item.qty⟩ : OOSItem) ∈ oos := by
  induction items generalizing oos pd with
  | nil => simp
  | cons item rest ih =>
    simp only [scanItems] at h
    cases hf : findProduct ps item.product_id with
    | none => rw [hf] at h; simp at h
    | some p =>
      rw [hf] at h
      cases hs : scanItems ps rest with
      | error e => rw [hs] at h; simp at h
      | ok pr =>
        obtain ⟨oosr, pdr⟩ := pr
        rw [hs] at h
        dsimp only at h
        intro it2 hm p2 hfp hl
        rcases List.mem_cons.mp hm with rfl | hm2
        · rw [hf] at hfp
          obtain rfl : p = p2 := by injection hfp
          rw [if_pos hl] at h
          obtain ⟨h1, h2⟩ :
              ({ product_id := p.id, product_name := p.name,
                 available_qty := p.qty,
                 requested_qty := it2.qty } : OOSItem) :: oosr = oos ∧
              ({ prod := p, requested_qty := it2.qty } : ProdReq) :: pdr = pd := by
            simpa using h
          subst h1
          exact List.mem_cons_self _ _
        · have hsub := ih oosr pdr (by rw [hs]) it2 hm2 p2 hfp hl
          by_cases hlt : p.qty < item.qty
          · rw [if_pos hlt] at h
            obtain ⟨h1, h2⟩ :
                ({ product_id := p.id, product_name := p.name,
                   available_qty := p.qty,
                   requested_qty := item.qty } : OOSItem) :: oosr = oos ∧
                ({ prod := p, requested_qty := item.qty } : ProdReq) :: pdr = pd := by
              simpa using h
            subst h1
            exact List.mem_cons_of_mem _ hsub
          · rw [if_neg hlt] at h
            obtain ⟨h1, h2⟩ : oosr = oos ∧
                ({ prod := p, requested_qty := item.qty } : ProdReq) :: pdr = pd := by
              simpa using h
            subst h1
            exact hsub

theorem scanItems_no_oos (ps : List Product) (items : List ReqItem)
    (pd : List ProdReq) (h : scanItems ps items = .ok ([], pd)) :
    ∀ e ∈ pd, e.requested_qty ≤ e.prod.qty := by
  induction items generalizing pd with
  | nil =>
    simp only [scanItems] at h
    obtain ⟨h1, h2⟩ : ([] : List OOSItem) = [] ∧ ([] : List ProdReq) = pd := by
      simpa using h
    subst h2
    simp
  | cons item rest ih =>
    simp only [scanItems] at h
    cases hf : findProduct ps item.product_id with
    | none => rw [hf] at h; simp at h
    | some p =>
      rw [hf] at h
      cases hs : scanItems ps rest with
      | error e => rw [hs] at h; simp at h
      | ok pr =>
        obtain ⟨oosr, pdr⟩ := pr
        rw [hs] at h
        dsimp only at h
        by_cases hlt : p.qty < item.qty
        · rw [if_pos hlt] at h
          simp at h
        · rw [if_neg hlt] at h
          obtain ⟨h1, h2⟩ : oosr = [] ∧
              ({ prod := p, requested_qty := item.qty } : ProdReq) :: pdr = pd := by
            simpa using h
          subst h1 h2
          intro e he
          rcases List.mem_cons.mp he with rfl | he2
          · exact le_of_not_lt hlt
          · exact ih pdr (by rw [hs]) e he2

theorem scanItems_forall2 (ps : List Product) (items : List ReqItem)
    (oos : List OOSItem) (pd : List ProdReq)
    (h : scanItems ps items = .ok (oos, pd)) :
    List.Forall₂ (fun (i : ReqItem) (e : ProdReq) =>
      findProduct ps i.product_id = some e.prod ∧ e.requested_qty = i.qty)
      items pd := by
  induction items generalizing oos pd with
  | nil =>
    simp only [scanItems] at h
    obtain ⟨h1, h2⟩ : ([] : List OOSItem) = oos ∧ ([] : List ProdReq) = pd := by
      simpa using h
    subst h2
    exact List.Forall₂.nil
  | cons item rest ih =>
    simp only [scanItems] at h
    cases hf : findProduct ps item.product_id with
    | none => rw [hf] at h; simp at h
    | some p =>
      rw [hf] at h
      cases hs : scanItems ps rest with
      | error e => rw [hs] at h; simp at h
      | ok pr =>
        obtain ⟨oosr, pdr⟩ := pr
        rw [hs] at h
        dsimp only at h
        by_cases hlt : p.qty < item.qty
        · rw [if_pos hlt] at h
          obtain ⟨h1, h2⟩ :
              ({ product_id := p.id, product_name := p.name,
                 available_qty := p.qty,
                 requested_qty := item.qty } : OOSItem) :: oosr = oos ∧
              ({ prod := p, requested_qty := item.qty } : ProdReq) :: pdr = pd := by
            simpa using h
          subst h2
          exact List.Forall₂.cons ⟨hf, rfl⟩ (ih oosr pdr (by rw [hs]))
        · rw [if_neg hlt] at h
          obtain ⟨h1, h2⟩ : oosr = oos ∧
              ({ prod := p, requested_qty := item.qty } : ProdReq) :: pdr = pd := by
            simpa using h
          subst h2
          exact List.Forall₂.cons ⟨hf, rfl⟩ (ih oosr pdr (by rw [hs]))

/-- C1: sale creation checks every line item against the product's
available quantity, accumulating every item whose requested quantity
exceeds the available quantity into the out-of-stock list rather than
stopping at the first; when that list is non-empty the transaction is
aborted with no effects on the database and the handler returns the
structured out-of-stock error containing exactly those items. -/
theorem C1_out_of_stock (user : String) (lg : Bool) (db : DB)
    (r : SaleRequest) (oos : List OOSItem) (pd : List ProdReq)
    (hv : validateSale r = true)
    (hscan : scanItems db.products r.items = .ok (oos, pd))
    (hne : oos ≠ []) :
    (createSale user lg db r).db = db ∧
    (createSale user lg db r).response = .outOfStock oos ∧
    (∀ item ∈ r.items, ∀ p, findProduct db.products item.product_id = some p →
      p.qty < item.qty → (⟨p.id, p.name, p.qty, item.qty⟩ : OOSItem) ∈ oos) ∧
    (∀ o ∈ oos, ∃ item ∈ r.items, ∃ p,
      findProduct db.products item.product_id = some p ∧ p.qty < item.qty ∧
      o = ⟨p.id, p.name, p.qty, item.qty⟩) := by
  refine ⟨?_, ?_, scanItems_oos_complete _ _ _ _ hscan,
    scanItems_oos_mem _ _ _ _ hscan⟩ <;>
    simp [createSale, hv, hscan, hne]

theorem C1_out_of_stock_witness :
    (createSale "u" true dbEx reqOutOfStockEx).db = dbEx ∧
    (createSale "u" true dbEx reqOutOfStockEx).response =
      .outOfStock [⟨1, "A", 5, 7⟩] ∧
    (∀ item ∈ reqOutOfStockEx.items, ∀ p,
      findProduct dbEx.products item.product_id = some p →
      p.qty < item.qty →
      (⟨p.id, p.name, p.qty, item.qty⟩ : OOSItem) ∈ [(⟨1, "A", 5, 7⟩ : OOSItem)]) ∧
    (∀ o ∈ [(⟨1, "A", 5, 7⟩ : OOSItem)], ∃ item ∈ reqOutOfStockEx.items, ∃ p,
      findProduct dbEx.products item.product_id = some p ∧ p.qty < item.qty ∧
      o = ⟨p.id, p.name, p.qty, item.qty⟩) :=
  C1_out_of_stock "u" true dbEx reqOutOfStockEx [⟨1, "A", 5, 7⟩] [⟨prodA, 7⟩]
    (by decide) (by rfl) (by decide)


theorem foldl_map_comm {α β : Type} (g : β → α → α) (l : List β)
    (xs : List α) :
    l.foldl (fun acc e => acc.map (g e)) xs =
      xs.map (fun x => l.foldl (fun y e => g e y) x) := by
  induction l generalizing xs with
  | nil => simp
  | cons e t ih =>
    simp only [List.foldl_cons]
    rw [ih (xs.map (g e)), List.map_map]
    rfl

theorem applySaleWrites_map (ps : List Product) (pd : List ProdReq) :
    applySaleWrites ps pd = ps.map (fun x => pd.foldl createStep x) :=
  foldl_map_comm (fun e y => createStep y e) pd ps

theorem restock_map (ps : List Product) (items : List SaleItem) :
    restock ps items = ps.map (fun x => items.foldl restockStep x) :=
  foldl_map_comm (fun it y => restockStep y it) items ps

theorem createStep_id (y : Product) (e : ProdReq) : (createStep y e).id = y.id := by
  unfold createStep
  split_ifs <;> rfl

theorem restockStep_id (y : Product) (it : SaleItem) :
    (restockStep y it).id = y.id := by
  unfold restockStep
  split_ifs <;> rfl

theorem create_fold_id (pd : List ProdReq) (x : Product) :
    (pd.foldl createStep x).id = x.id := by
  induction pd generalizing x with
  | nil => rfl
  | cons e t ih =>
    simp only [List.foldl_cons]
    rw [ih (createStep x e), createStep_id]

theorem restock_fold_id (items : List SaleItem) (x : Product) :
    (items.foldl restockStep x).id = x.id := by
  induction items generalizing x with
  | nil => rfl
  | cons it t ih =>
    simp only [List.foldl_cons]
    rw [ih (restockStep x it), restockStep_id]

theorem create_fold_skip (pd : List ProdReq) (x : Product)
    (h : ∀ e ∈ pd, x.id ≠ e.prod.id) :
    pd.foldl createStep x = x := by
  induction pd with
  | nil => rfl
  | cons e t ih =>
    simp only [List.foldl_cons]
    rw [createStep, if_neg (h e (List.mem_cons_self e t))]
    exact ih (fun e2 he2 => h e2 (List.mem_cons_of_mem e he2))

theorem restock_fold_skip (items : List SaleItem) (x : Product)
    (h : ∀ it ∈ items, x.id ≠ it.product_id) :
    items.foldl restockStep x = x := by
  induction items with
  | nil => rfl
  | cons it t ih =>
    simp only [List.foldl_cons]
    rw [restockStep, if_neg (h it (List.mem_cons_self it t))]
    exact ih (fun it2 hit2 => h it2 (List.mem_cons_of_mem it hit2))

theorem create_fold_unique (pd : List ProdReq) (e : ProdReq) (x : Product)
    (he : e ∈ pd) (hx : x.id = e.prod.id)
    (huniq : pd.Pairwise (fun a b => a.prod.id ≠ b.prod.id)) :
    pd.foldl createStep x = { x with qty := e.prod.qty - e.requested_qty } := by
  induction pd generalizing x with
  | nil => cases he
  | cons e0 t ih =>
    obtain ⟨hhead, htail⟩ := List.pairwise_cons.mp huniq
    rcases List.mem_cons.mp he with rfl | het
    · simp only [List.foldl_cons]
      rw [createStep, if_pos hx]
      apply create_fold_skip
      intro e2 he2
      show x.id ≠ e2.prod.id
      rw [hx]
      exact hhead e2 he2
    · simp only [List.foldl_cons]
      rw [createStep, if_neg (by rw [hx]; exact (hhead e het).symm)]
      exact ih x het hx htail

theorem restock_fold_elem (items : List SaleItem) (x : Product) :
    items.foldl restockStep x = { x with qty := x.qty + sumQtyFor items x.id } := by
  induction items generalizing x with
  | nil => simp [sumQtyFor]
  | cons it t ih =>
    simp only [List.foldl_cons]
    by_cases hid : x.id = it.product_id
    · rw [restockStep, if_pos hid]
      rw [ih]
      have hq : x.qty + it.qty + sumQtyFor t x.id =
          x.qty + sumQtyFor (it :: t) x.id := by
        simp only [sumQtyFor, List.map_cons, List.sum_cons, if_pos hid.symm]
        ring
      rw [hq]
    · rw [restockStep, if_neg hid]
      rw [ih]
      have hq : sumQtyFor t x.id = sumQtyFor (it :: t) x.id := by
        simp only [sumQtyFor, List.map_cons, List.sum_cons,
          if_neg (Ne.symm hid)]
        ring
      rw [hq]

theorem create_fold_qty (pd : List ProdReq) (x : Product) :
    (pd.foldl createStep x).qty = x.qty ∨
    ∃ e ∈ pd, (pd.foldl createStep x).qty = e.prod.qty - e.requested_qty := by
  induction pd generalizing x with
  | nil => left; rfl
  | cons e t ih =>
    simp only [List.foldl_cons]
    by_cases hid : x.id = e.prod.id
    · rw [createStep, if_pos hid]
      rcases ih { x with qty := e.prod.qty - e.requested_qty } with h | ⟨e2, he2, h⟩
      · right
        exact ⟨e, List.mem_cons_self e t, by rw [h]⟩
      · right
        exact ⟨e2, List.mem_cons_of_mem e he2, h⟩
    · rw [createStep, if_neg hid]
      rcases ih x with h | ⟨e2, he2, h⟩
      · left; exact h
      · right; exact ⟨e2, List.mem_cons_of_mem e he2, h⟩

theorem forall2_mem_left {α β : Type} {R : α → β → Prop} :
    ∀ {l1 : List α} {l2 : List β}, List.Forall₂ R l1 l2 →
      ∀ a ∈ l1, ∃ b ∈ l2, R a b := by
  intro l1 l2 h
  induction h with
  | nil => simp
  | @cons a b t1 t2 hr ht ih =>
    intro a2 ha2
    rcases List.mem_cons.mp ha2 with rfl | ha3
    · exact ⟨b, List.mem_cons_self b t2, hr⟩
    · obtain ⟨b2, hb2, hrb⟩ := ih a2 ha3
      exact ⟨b2, List.mem_cons_of_mem b hb2, hrb⟩

theorem forall2_mem_right {α β : Type} {R : α → β → Prop} :
    ∀ {l1 : List α} {l2 : List β}, List.Forall₂ R l1 l2 →
      ∀ b ∈ l2, ∃ a ∈ l1, R a b := by
  intro l1 l2 h
  induction h with
  | nil => simp
  | @cons a b t1 t2 hr ht ih =>
    intro b2 hb2
    rcases List.mem_cons.mp hb2 with rfl | hb3
    · exact ⟨a, List.mem_cons_self a t1, hr⟩
    · obtain ⟨a2, ha2, hra⟩ := ih b2 hb3
      exact ⟨a2, List.mem_cons_of_mem a ha2, hra⟩

theorem forall2_pairwise {α β : Type} {R : α → β → Prop} {S : α → α → Prop}
    {T : β → β → Prop}
    (hmono : ∀ a b a2 b2, R a b → R a2 b2 → S a a2 → T b b2) :
    ∀ {l1 : List α} {l2 : List β}, List.Forall₂ R l1 l2 →
      l1.Pairwise S → l2.Pairwise T := by
  intro l1 l2 h
  induction h with
  | nil => intro _; exact List.Pairwise.nil
  | @cons a b t1 t2 hr ht ih =>
    intro hp
    obtain ⟨hhead, htail⟩ := List.pairwise_cons.mp hp
    refine List.pairwise_cons.mpr ⟨?_, ih htail⟩
    intro b2 hb2
    obtain ⟨a2, ha2, hra2⟩ := forall2_mem_right ht b2 hb2
    exact hmono a b a2 b2 hr hra2 (hhead a2 ha2)

theorem findProduct_id {ps : List Product} {pid : Nat} {p : Product}
    (h : findProduct ps pid = some p) : p.id = pid := by
  have h2 := List.find?_some h
  simpa using h2


theorem findProduct_map_id (ps : List Product) (pid : Nat)
    (F : Product → Product) (hF : ∀ x, (F x).id = x.id) :
    findProduct (ps.map F) pid = (findProduct ps pid).map F := by
  unfold findProduct
  apply find?_map_pres
  intro a
  simp [hF]

theorem mathMax_right_zero_nonneg (a : ℚ) : 0 ≤ mathMax a 0 := by
  unfold mathMax
  split_ifs <;> linarith

/-- C4 (amended): for every sale created with sufficient stock, if the
line items reference pairwise distinct products then each line item's
product ends with qty equal to its prior qty minus the requested qty, that
committed qty being non-negative; and every product quantity in the
committed state of any such sale (duplicate items included) is
non-negative, given non-negative stock before. -/
theorem C4_qty_decrement (user : String) (lg : Bool) (db : DB)
    (r : SaleRequest) (pd : List ProdReq)
    (hv : validateSale r = true)
    (hscan : scanItems db.products r.items = .ok ([], pd))
    (hpos : ∀ p ∈ db.products, 0 ≤ p.qty) :
    (r.items.Pairwise (fun a b => a.product_id ≠ b.product_id) →
      ∀ item ∈ r.items, ∀ p, findProduct db.products item.product_id = some p →
      findProduct (createSale user lg db r).db.products item.product_id =
        some { p with qty := p.qty - item.qty } ∧ 0 ≤ p.qty - item.qty) ∧
    (∀ p ∈ (createSale user lg db r).db.products, 0 ≤ p.qty) := by
  have hdb : (createSale user lg db r).db = commitSale db r pd := by
    simp [createSale, hv, hscan]
  rw [hdb]
  rw [show (commitSale db r pd).products = applySaleWrites db.products pd
    from rfl]
  rw [applySaleWrites_map]
  have hf2 := scanItems_forall2 db.products r.items [] pd hscan
  have hok := scanItems_no_oos db.products r.items pd hscan
  constructor
  · intro hdistinct item hitem p hfp
    have hpduniq : pd.Pairwise (fun a b => a.prod.id ≠ b.prod.id) := by
      refine forall2_pairwise ?_ hf2 hdistinct
      rintro a b a2 b2 ⟨hfa, _⟩ ⟨hfa2, _⟩ hS
      rw [findProduct_id hfa, findProduct_id hfa2]
      exact hS
    obtain ⟨e, hepd, hfe, hereq⟩ := forall2_mem_left hf2 item hitem
    have hep : e.prod = p := by
      rw [hfe] at hfp
      injection hfp
    have hpid : p.id = e.prod.id := by rw [hep]
    constructor
    · rw [findProduct_map_id _ _ _ (fun x => create_fold_id pd x), hfp]
      show some (pd.foldl createStep p) = _
      rw [create_fold_unique pd e p hepd hpid hpduniq, hep, hereq]
    · have h3 := hok e hepd
      rw [hep, hereq] at h3
      linarith
  · intro p hp
    rcases List.mem_map.mp hp with ⟨x, hx, rfl⟩
    rcases create_fold_qty pd x with h | ⟨e, hepd, h⟩
    · rw [h]
      exact hpos x hx
    · rw [h]
      have h4 := hok e hepd
      linarith

theorem C4_qty_decrement_witness :
    (reqPaidEx.items.Pairwise (fun a b => a.product_id ≠ b.product_id) →
      ∀ item ∈ reqPaidEx.items, ∀ p,
      findProduct dbEx.products item.product_id = some p →
      findProduct (createSale "u" true dbEx reqPaidEx).db.products
          item.product_id = some { p with qty := p.qty - item.qty } ∧
        0 ≤ p.qty - item.qty) ∧
    (∀ p ∈ (createSale "u" true dbEx reqPaidEx).db.products, 0 ≤ p.qty) :=
  C4_qty_decrement "u" true dbEx reqPaidEx [⟨prodA, 2⟩]
    (by decide) (by rfl) (by decide)

/-- C4 counterexample: a sale with two line items for the same product
(2 then 3 units from a stock of 5) commits, yet the product ends with
qty 2: the first line item's product does not end at 5 − 2 = 3, so the
per-line-item decrement equation of the claim fails on duplicate items. -/
theorem C4_qty_decrement_cex :
    (createSale "u" true dbEx reqDupEx).response = .created 1 ∧
    (⟨1, 2⟩ : ReqItem) ∈ reqDupEx.items ∧
    findProduct dbEx.products 1 = some prodA ∧
    prodA.qty = 5 ∧ (⟨(1 : Nat), (2 : ℚ)⟩ : ReqItem).qty = 2 ∧
    findProduct (createSale "u" true dbEx reqDupEx).db.products 1 =
      some { prodA with qty := 2 } ∧
    ¬((2 : ℚ) = 5 - 2) := by
  refine ⟨by rfl, by decide, by rfl, by rfl, by rfl, ?_, by norm_num⟩
  norm_num [createSale, validateSale, scanItems, findProduct, commitSale,
    applySaleWrites, updateQty, commitCustomers, truthyId, dbEx, prodA,
    reqDupEx]

/-- C5: sale deletion on an existing sale increments each product's qty by
the total quantity its items carry (each item restocking exactly its own
quantity), and reverses the balance reconciliation symmetrically: for an
overpaid sale the recorded surplus is subtracted from the customer's
overpaid_amount first with any shortfall spilling into underpaid_amount,
mirror-image for an underpaid sale, both written balances clamped
non-negative. -/
theorem C5_delete_restock_and_reversal (user : String) (lg : Bool) (db : DB)
    (sid : Nat) (sale : Sale)
    (hfind : findSale db.sales sid = some sale) :
    ((deleteSale user lg db sid).db.products =
      db.products.map (fun p =>
        { p with qty := p.qty + sumQtyFor (itemsOfSale db.sale_items sid) p.id })) ∧
    (∀ cid c, truthyId sale.customer_id = some cid →
      findCustomer db.customers cid = some c →
      0 ≤ c.overpaid_amount → 0 ≤ c.underpaid_amount →
      ∃ c2, findCustomer (deleteSale user lg db sid).db.customers cid = some c2 ∧
        0 ≤ c2.overpaid_amount ∧ 0 ≤ c2.underpaid_amount ∧
        (sale.payment_status = .overpaid →
          c2.overpaid_amount =
            mathMax (c.overpaid_amount -
              (sale.paid_amount - sale.total_amount)) 0 ∧
          c2.underpaid_amount = c.underpaid_amount +
            mathMax ((sale.paid_amount - sale.total_amount) -
              c.overpaid_amount) 0) ∧
        (sale.payment_status = .underpaid →
          c2.underpaid_amount =
            mathMax (c.underpaid_amount -
              (sale.total_amount - sale.paid_amount)) 0 ∧
          c2.overpaid_amount = c.overpaid_amount +
            mathMax ((sale.total_amount - sale.paid_amount) -
              c.underpaid_amount) 0)) := by
  have hdb : (deleteSale user lg db sid).db = deleteCommit db sid sale := by
    simp [deleteSale, hfind]
  rw [hdb]
  constructor
  · show restock db.products (itemsOfSale db.sale_items sid) = _
    rw [restock_map]
    apply List.map_congr_left
    intro p _
    exact restock_fold_elem _ p
  · intro cid c hcid hc hov hun
    have hcust : (deleteCommit db sid sale).customers =
        updateCustomerBalance db.customers cid
          (reverseBalance sale.payment_status sale.total_amount
            sale.paid_amount c.overpaid_amount c.underpaid_amount).1
          (reverseBalance sale.payment_status sale.total_amount
            sale.paid_amount c.overpaid_amount c.underpaid_amount).2 := by
      show deleteCustomers db sale = _
      unfold deleteCustomers
      rw [hcid]
      dsimp only
      rw [hc]
    rw [hcust]
    refine ⟨_, findCustomer_updateCustomerBalance _ _ _ _ _ hc,
      mathMax_zero_nonneg _, mathMax_zero_nonneg _, ?_, ?_⟩
    · intro hst
      rw [hst, reverseBalance_overpaid_eq]
      dsimp only
      constructor
      · exact mathMax_zero_of_nonneg _ (mathMax_right_zero_nonneg _)
      · refine mathMax_zero_of_nonneg _ ?_
        have h5 := mathMax_right_zero_nonneg
          ((sale.paid_amount - sale.total_amount) - c.overpaid_amount)
        linarith
    · intro hst
      rw [hst, reverseBalance_underpaid_eq]
      dsimp only
      constructor
      · refine mathMax_zero_of_nonneg _ ?_
        exact mathMax_right_zero_nonneg _
      · refine mathMax_zero_of_nonneg _ ?_
        have h5 := mathMax_right_zero_nonneg
          ((sale.total_amount - sale.paid_amount) - c.underpaid_amount)
        linarith

theorem C5_delete_restock_and_reversal_witness :
    ((deleteSale "u" true dbMidEx 1).db.products =
      dbMidEx.products.map (fun p =>
        { p with
          qty := p.qty + sumQtyFor (itemsOfSale dbMidEx.sale_items 1) p.id })) ∧
    (∀ cid c, truthyId saleMidEx.customer_id = some cid →
      findCustomer dbMidEx.customers cid = some c →
      0 ≤ c.overpaid_amount → 0 ≤ c.underpaid_amount →
      ∃ c2, findCustomer (deleteSale "u" true dbMidEx 1).db.customers cid =
          some c2 ∧
        0 ≤ c2.overpaid_amount ∧ 0 ≤ c2.underpaid_amount ∧
        (saleMidEx.payment_status = .overpaid →
          c2.overpaid_amount =
            mathMax (c.overpaid_amount -
              (saleMidEx.paid_amount - saleMidEx.total_amount)) 0 ∧
          c2.underpaid_amount = c.underpaid_amount +
            mathMax ((saleMidEx.paid_amount - saleMidEx.total_amount) -
              c.overpaid_amount) 0) ∧
        (saleMidEx.payment_status = .underpaid →
          c2.underpaid_amount =
            mathMax (c.underpaid_amount -
              (saleMidEx.total_amount - saleMidEx.paid_amount)) 0 ∧
          c2.overpaid_amount = c.overpaid_amount +
            mathMax ((saleMidEx.total_amount - saleMidEx.paid_amount) -
              c.underpaid_amount) 0)) :=
  C5_delete_restock_and_reversal "u" true dbMidEx 1 saleMidEx (by rfl)


theorem pairwise_key_unique {α : Type} (key : α → Nat) :
    ∀ {l : List α}, l.Pairwise (fun a b => key a ≠ key b) →
      ∀ {x y : α}, x ∈ l → y ∈ l → key x = key y → x = y := by
  intro l hp
  induction l with
  | nil => intro x y hx; cases hx
  | cons a t ih =>
    obtain ⟨hhead, htail⟩ := List.pairwise_cons.mp hp
    intro x y hx hy hk
    rcases List.mem_cons.mp hx with rfl | hx2
    · rcases List.mem_cons.mp hy with rfl | hy2
      · rfl
      · exact absurd hk (hhead y hy2)
    · rcases List.mem_cons.mp hy with rfl | hy2
      · exact absurd hk.symm (hhead x hx2)
      · exact ih htail hx2 hy2 hk

theorem mathMax_ge_left (a b : ℚ) : a ≤ mathMax a b := by
  unfold mathMax; split_ifs <;> linarith

theorem mathMax_ge_right (a b : ℚ) : b ≤ mathMax a b := by
  unfold mathMax; split_ifs <;> linarith

theorem roundtrip_overpaid (s ov un : ℚ) (hov : 0 ≤ ov) (hun : 0 ≤ un)
    (hs : 0 < s) (hinv : ov = 0 ∨ un = 0) :
    mathMax 0 (mathMax ((ov + (s - mathMin un s)) - s) 0) = ov ∧
    mathMax 0 ((un - mathMin un s) +
      mathMax (s - (ov + (s - mathMin un s))) 0) = un := by
  unfold mathMax mathMin
  rcases hinv with h0 | h0 <;> split_ifs <;> constructor <;>
    first | trivial | linarith

theorem roundtrip_underpaid (s ov un : ℚ) (hov : 0 ≤ ov) (hun : 0 ≤ un)
    (hs : 0 < s) (hinv : ov = 0 ∨ un = 0) :
    mathMax 0 ((ov - mathMin ov s) +
      mathMax (s - (un + (s - mathMin ov s))) 0) = ov ∧
    mathMax 0 (mathMax ((un + (s - mathMin ov s)) - s) 0) = un := by
  unfold mathMax mathMin
  rcases hinv with h0 | h0 <;> split_ifs <;> constructor <;>
    first | trivial | linarith

theorem sum_single_match (e : ProdReq) :
    ∀ (pd : List ProdReq), e ∈ pd →
      pd.Pairwise (fun a b => a.prod.id ≠ b.prod.id) →
      (pd.map (fun e2 => if e2.prod.id = e.prod.id
        then e2.requested_qty else 0)).sum = e.requested_qty := by
  intro pd
  induction pd with
  | nil => intro he; cases he
  | cons e0 t ih =>
    intro he hp
    obtain ⟨hhead, htail⟩ := List.pairwise_cons.mp hp
    rcases List.mem_cons.mp he with rfl | het
    · simp only [List.map_cons, List.sum_cons, if_pos rfl]
      have hz : (t.map (fun e2 => if e2.prod.id = e.prod.id
          then e2.requested_qty else 0)).sum = 0 := by
        apply List.sum_eq_zero
        intro x hx
        rcases List.mem_map.mp hx with ⟨e2, he2, rfl⟩
        rw [if_neg (Ne.symm (hhead e2 he2))]
      rw [hz]
      simp
    · simp only [List.map_cons, List.sum_cons,
        if_neg (hhead e het)]
      rw [ih het htail]
      ring

theorem sumQtyFor_saleItems (n : Nat) (pd : List ProdReq) (pid : Nat) :
    sumQtyFor (saleItemsRows n pd) pid =
      (pd.map (fun e2 => if e2.prod.id = pid then e2.requested_qty else 0)).sum := by
  unfold sumQtyFor saleItemsRows
  rw [List.map_map]
  rfl

theorem sumQtyFor_saleItems_zero (n : Nat) (pd : List ProdReq) (pid : Nat)
    (h : ∀ e ∈ pd, pid ≠ e.prod.id) :
    sumQtyFor (saleItemsRows n pd) pid = 0 := by
  rw [sumQtyFor_saleItems]
  apply List.sum_eq_zero
  intro x hx
  rcases List.mem_map.mp hx with ⟨e2, he2, rfl⟩
  rw [if_neg (fun hh => h e2 he2 hh.symm)]


theorem findSale_commit (db : DB) (r : SaleRequest) (pd : List ProdReq)
    (hsfresh : ∀ s2 ∈ db.sales, s2.id ≠ db.nextSaleId) :
    findSale (commitSale db r pd).sales db.nextSaleId = some (saleRow db r) := by
  show findSale (db.sales ++ [saleRow db r]) db.nextSaleId = _
  unfold findSale
  rw [List.find?_append]
  have h1 : db.sales.find? (fun s2 => s2.id == db.nextSaleId) = none := by
    rw [List.find?_eq_none]
    intro s2 hs2
    simpa using hsfresh s2 hs2
  rw [h1]
  simp [saleRow]

theorem itemsOfSale_commit (db : DB) (r : SaleRequest) (pd : List ProdReq)
    (hifresh : ∀ it ∈ db.sale_items, it.sale_id ≠ db.nextSaleId) :
    itemsOfSale (commitSale db r pd).sale_items db.nextSaleId =
      saleItemsRows db.nextSaleId pd := by
  show itemsOfSale (db.sale_items ++ saleItemsRows db.nextSaleId pd)
      db.nextSaleId = _
  unfold itemsOfSale
  rw [List.filter_append]
  have h1 : db.sale_items.filter
      (fun it => it.sale_id == db.nextSaleId) = [] := by
    rw [List.filter_eq_nil_iff]
    intro it hit
    simpa using hifresh it hit
  have h2 : (saleItemsRows db.nextSaleId pd).filter
      (fun it => it.sale_id == db.nextSaleId) =
      saleItemsRows db.nextSaleId pd := by
    apply List.filter_eq_self.mpr
    intro it hit
    unfold saleItemsRows at hit
    rcases List.mem_map.mp hit with ⟨e, he, rfl⟩
    simp
  rw [h1, h2]
  rfl

theorem sales_filter_commit (db : DB) (r : SaleRequest) (pd : List ProdReq)
    (hsfresh : ∀ s2 ∈ db.sales, s2.id ≠ db.nextSaleId) :
    (commitSale db r pd).sales.filter
      (fun s2 => !(s2.id == db.nextSaleId)) = db.sales := by
  show (db.sales ++ [saleRow db r]).filter _ = _
  rw [List.filter_append]
  have h1 : db.sales.filter (fun s2 => !(s2.id == db.nextSaleId)) = db.sales :=
    List.filter_eq_self.mpr (fun s2 hs2 => by simpa using hsfresh s2 hs2)
  have h2 : [saleRow db r].filter
      (fun s2 => !(s2.id == db.nextSaleId)) = [] := by
    simp [saleRow]
  rw [h1, h2, List.append_nil]

theorem items_filter_commit (db : DB) (r : SaleRequest) (pd : List ProdReq)
    (hifresh : ∀ it ∈ db.sale_items, it.sale_id ≠ db.nextSaleId) :
    (commitSale db r pd).sale_items.filter
      (fun it => !(it.sale_id == db.nextSaleId)) = db.sale_items := by
  show (db.sale_items ++ saleItemsRows db.nextSaleId pd).filter _ = _
  rw [List.filter_append]
  have h1 : db.sale_items.filter
      (fun it => !(it.sale_id == db.nextSaleId)) = db.sale_items :=
    List.filter_eq_self.mpr (fun it hit => by simpa using hifresh it hit)
  have h2 : (saleItemsRows db.nextSaleId pd).filter
      (fun it => !(it.sale_id == db.nextSaleId)) = [] := by
    rw [List.filter_eq_nil_iff]
    intro it hit
    unfold saleItemsRows at hit
    rcases List.mem_map.mp hit with ⟨e, he, rfl⟩
    simp
  rw [h1, h2, List.append_nil]

theorem scanItems_pd_pairwise (db : DB) (r : SaleRequest) (pd : List ProdReq)
    (hscan : scanItems db.products r.items = .ok ([], pd))
    (hdistinct : r.items.Pairwise (fun a b => a.product_id ≠ b.product_id)) :
    pd.Pairwise (fun a b => a.prod.id ≠ b.prod.id) := by
  refine forall2_pairwise ?_ (scanItems_forall2 db.products r.items [] pd hscan)
    hdistinct
  rintro a b a2 b2 ⟨hfa, _⟩ ⟨hfa2, _⟩ hS
  rw [findProduct_id hfa, findProduct_id hfa2]
  exact hS

theorem roundtrip_products (db : DB) (r : SaleRequest) (pd : List ProdReq)
    (hscan : scanItems db.products r.items = .ok ([], pd))
    (hdistinct : r.items.Pairwise (fun a b => a.product_id ≠ b.product_id))
    (hpuniq : db.products.Pairwise (fun a b => a.id ≠ b.id)) :
    restock (applySaleWrites db.products pd)
      (saleItemsRows db.nextSaleId pd) = db.products := by
  have hf2 := scanItems_forall2 db.products r.items [] pd hscan
  have hpduniq := scanItems_pd_pairwise db r pd hscan hdistinct
  rw [applySaleWrites_map, restock_map, List.map_map]
  have hpt : ∀ x ∈ db.products,
      ((fun x => (saleItemsRows db.nextSaleId pd).foldl restockStep x) ∘
        (fun x => pd.foldl createStep x)) x = x := by
    intro x hx
    simp only [Function.comp]
    by_cases hmatch : ∃ e ∈ pd, x.id = e.prod.id
    · obtain ⟨e, hepd, hid⟩ := hmatch
      have hmem : e.prod ∈ db.products := by
        obtain ⟨item, hitem, hfe, _⟩ := forall2_mem_right hf2 e hepd
        exact List.mem_of_find?_eq_some hfe
      have hxe : x = e.prod :=
        pairwise_key_unique (fun p => p.id) hpuniq hx hmem hid
      rw [create_fold_unique pd e x hepd hid hpduniq]
      rw [restock_fold_elem]
      show { x with
        qty := (e.prod.qty - e.requested_qty) +
          sumQtyFor (saleItemsRows db.nextSaleId pd) x.id } = x
      have hsum : sumQtyFor (saleItemsRows db.nextSaleId pd) x.id =
          e.requested_qty := by
        rw [sumQtyFor_saleItems, hid]
        exact sum_single_match e pd hepd hpduniq
      rw [hsum]
      have hq : e.prod.qty - e.requested_qty + e.requested_qty = e.prod.qty := by
        ring
      rw [hq, ← hxe]
    · push_neg at hmatch
      rw [create_fold_skip pd x hmatch]
      rw [restock_fold_elem]
      rw [sumQtyFor_saleItems_zero db.nextSaleId pd x.id hmatch]
      have hq : x.qty + 0 = x.qty := by ring
      rw [hq]
  rw [List.map_congr_left hpt, List.map_id']

theorem updateCustomerBalance_twice (cs : List Customer) (cid : Nat)
    (a1 a2 b1 b2 : ℚ) :
    updateCustomerBalance (updateCustomerBalance cs cid a1 a2) cid b1 b2 =
      cs.map (fun c0 => if c0.id = cid then
        { c0 with
          overpaid_amount := mathMax 0 b1
          underpaid_amount := mathMax 0 b2 }
        else c0) := by
  unfold updateCustomerBalance
  rw [List.map_map]
  apply List.map_congr_left
  intro c0 _
  by_cases h : c0.id = cid <;> simp [Function.comp, h]


theorem roundtrip_customers (db : DB) (r : SaleRequest) (pd : List ProdReq)
    (hcuniq : db.customers.Pairwise (fun a b => a.id ≠ b.id))
    (hcinv : ∀ cid c, truthyId r.customer_id = some cid →
      findCustomer db.customers cid = some c →
      0 ≤ c.overpaid_amount ∧ 0 ≤ c.underpaid_amount ∧
      (c.overpaid_amount = 0 ∨ c.underpaid_amount = 0)) :
    deleteCustomers (commitSale db r pd) (saleRow db r) = db.customers := by
  unfold deleteCustomers
  rw [show (saleRow db r).customer_id = r.customer_id from rfl]
  cases hct : truthyId r.customer_id with
  | none =>
    show (commitSale db r pd).customers = db.customers
    show commitCustomers db r = db.customers
    unfold commitCustomers
    rw [hct]
  | some cid =>
    dsimp only
    cases hfc : findCustomer db.customers cid with
    | none =>
      have hcc : (commitSale db r pd).customers = db.customers := by
        show commitCustomers db r = _
        unfold commitCustomers
        rw [hct]
        dsimp only
        rw [hfc]
      rw [hcc, hfc]
    | some c =>
      obtain ⟨hov, hun, hinv⟩ := hcinv cid c hct hfc
      have hcidc : c.id = cid := by
        simpa using List.find?_some hfc
      have hcc : (commitSale db r pd).customers =
          updateCustomerBalance db.customers cid
            (reconcile (derivePaymentStatus r.total_amount r.paid_amount)
              r.total_amount r.paid_amount c.overpaid_amount
              c.underpaid_amount).1
            (reconcile (derivePaymentStatus r.total_amount r.paid_amount)
              r.total_amount r.paid_amount c.overpaid_amount
              c.underpaid_amount).2 := by
        show commitCustomers db r = _
        unfold commitCustomers
        rw [hct]
        dsimp only
        rw [hfc]
      rw [hcc]
      rw [findCustomer_updateCustomerBalance db.customers cid _ _ c hfc]
      dsimp only
      have harith :
          mathMax 0 (reverseBalance
            (derivePaymentStatus r.total_amount r.paid_amount)
            r.total_amount r.paid_amount
            (mathMax 0 (reconcile
              (derivePaymentStatus r.total_amount r.paid_amount)
              r.total_amount r.paid_amount c.overpaid_amount
              c.underpaid_amount).1)
            (mathMax 0 (reconcile
              (derivePaymentStatus r.total_amount r.paid_amount)
              r.total_amount r.paid_amount c.overpaid_amount
              c.underpaid_amount).2)).1 = c.overpaid_amount ∧
          mathMax 0 (reverseBalance
            (derivePaymentStatus r.total_amount r.paid_amount)
            r.total_amount r.paid_amount
            (mathMax 0 (reconcile
              (derivePaymentStatus r.total_amount r.paid_amount)
              r.total_amount r.paid_amount c.overpaid_amount
              c.underpaid_amount).1)
            (mathMax 0 (reconcile
              (derivePaymentStatus r.total_amount r.paid_amount)
              r.total_amount r.paid_amount c.overpaid_amount
              c.underpaid_amount).2)).2 = c.underpaid_amount := by
        rcases lt_trichotomy r.total_amount r.paid_amount with hlt | heq | hgt
        · have hst := (derive_eq_overpaid_iff r.total_amount r.paid_amount).mpr hlt
          rw [hst, reconcile_overpaid_eq _ _ _ _ hun (by linarith)]
          dsimp only
          have h1 := mathMin_le_left c.underpaid_amount
            (r.paid_amount - r.total_amount)
          have h2 := mathMin_le_right c.underpaid_amount
            (r.paid_amount - r.total_amount)
          have hA := mathMax_zero_of_nonneg (c.overpaid_amount +
            ((r.paid_amount - r.total_amount) -
              mathMin c.underpaid_amount (r.paid_amount - r.total_amount)))
            (by linarith)
          have hB := mathMax_zero_of_nonneg (c.underpaid_amount -
            mathMin c.underpaid_amount (r.paid_amount - r.total_amount))
            (by linarith)
          rw [hA, hB, reverseBalance_overpaid_eq]
          exact roundtrip_overpaid (r.paid_amount - r.total_amount)
            c.overpaid_amount c.underpaid_amount hov hun (by linarith) hinv
        · have hst := (derive_eq_paid_iff r.total_amount r.paid_amount).mpr heq.symm
          rw [hst]
          show mathMax 0 (reverseBalance .paid r.total_amount r.paid_amount
              (mathMax 0 c.overpaid_amount)
              (mathMax 0 c.underpaid_amount)).1 = c.overpaid_amount ∧
            mathMax 0 (reverseBalance .paid r.total_amount r.paid_amount
              (mathMax 0 c.overpaid_amount)
              (mathMax 0 c.underpaid_amount)).2 = c.underpaid_amount
          rw [mathMax_zero_of_nonneg _ hov, mathMax_zero_of_nonneg _ hun]
          exact ⟨mathMax_zero_of_nonneg _ hov, mathMax_zero_of_nonneg _ hun⟩
        · have hst := (derive_eq_underpaid_iff r.total_amount r.paid_amount).mpr hgt
          rw [hst, reconcile_underpaid_eq _ _ _ _ hov (by linarith)]
          dsimp only
          have h1 := mathMin_le_left c.overpaid_amount
            (r.total_amount - r.paid_amount)
          have h2 := mathMin_le_right c.overpaid_amount
            (r.total_amount - r.paid_amount)
          have hA := mathMax_zero_of_nonneg (c.overpaid_amount -
            mathMin c.overpaid_amount (r.total_amount - r.paid_amount))
            (by linarith)
          have hB := mathMax_zero_of_nonneg (c.underpaid_amount +
            ((r.total_amount - r.paid_amount) -
              mathMin c.overpaid_amount (r.total_amount - r.paid_amount)))
            (by linarith)
          rw [hA, hB, reverseBalance_underpaid_eq]
          exact roundtrip_underpaid (r.total_amount - r.paid_amount)
            c.overpaid_amount c.underpaid_amount hov hun (by linarith) hinv
      rw [updateCustomerBalance_twice]
      have hone : ∀ c0 ∈ db.customers,
          (if c0.id = cid then
            ({ c0 with
              overpaid_amount := mathMax 0 (reverseBalance
                (derivePaymentStatus r.total_amount r.paid_amount)
                r.total_amount r.paid_amount
                (mathMax 0 (reconcile
                  (derivePaymentStatus r.total_amount r.paid_amount)
                  r.total_amount r.paid_amount c.overpaid_amount
                  c.underpaid_amount).1)
                (mathMax 0 (reconcile
                  (derivePaymentStatus r.total_amount r.paid_amount)
                  r.total_amount r.paid_amount c.overpaid_amount
                  c.underpaid_amount).2)).1
              underpaid_amount := mathMax 0 (reverseBalance
                (derivePaymentStatus r.total_amount r.paid_amount)
                r.total_amount r.paid_amount
                (mathMax 0 (reconcile
                  (derivePaymentStatus r.total_amount r.paid_amount)
                  r.total_amount r.paid_amount c.overpaid_amount
                  c.underpaid_amount).1)
                (mathMax 0 (reconcile
                  (derivePaymentStatus r.total_amount r.paid_amount)
                  r.total_amount r.paid_amount c.overpaid_amount
                  c.underpaid_amount).2)).2 } : Customer)
          else c0) = c0 := by
        intro c0 hc0
        by_cases h : c0.id = cid
        · rw [if_pos h]
          have hc0c : c0 = c := pairwise_key_unique (fun a => a.id) hcuniq hc0
            (List.mem_of_find?_eq_some hfc)
            (by show c0.id = c.id; rw [h, hcidc])
          rw [hc0c, harith.1, harith.2]
        · rw [if_neg h]
      exact (List.map_congr_left hone).trans (List.map_id' db.customers)

/-- C3 (amended): creating a sale whose line items reference pairwise
distinct products and then deleting it, with no intervening operations, is
the identity on the affected state: products, customers, sales and
sale_items all return to their pre-sale values, for any starting state
satisfying the schema and reachability invariants (unique product and
customer ids, a fresh auto-increment sale id, and customer balances that
are non-negative with at most one of the two positive). -/
theorem C3_create_delete_roundtrip (user1 user2 : String) (lg1 lg2 : Bool)
    (db : DB) (r : SaleRequest) (pd : List ProdReq)
    (hv : validateSale r = true)
    (hscan : scanItems db.products r.items = .ok ([], pd))
    (hdistinct : r.items.Pairwise (fun a b => a.product_id ≠ b.product_id))
    (hpuniq : db.products.Pairwise (fun a b => a.id ≠ b.id))
    (hcuniq : db.customers.Pairwise (fun a b => a.id ≠ b.id))
    (hsfresh : ∀ s2 ∈ db.sales, s2.id ≠ db.nextSaleId)
    (hifresh : ∀ it ∈ db.sale_items, it.sale_id ≠ db.nextSaleId)
    (hcinv : ∀ cid c, truthyId r.customer_id = some cid →
      findCustomer db.customers cid = some c →
      0 ≤ c.overpaid_amount ∧ 0 ≤ c.underpaid_amount ∧
      (c.overpaid_amount = 0 ∨ c.underpaid_amount = 0)) :
    (deleteSale user2 lg2 (createSale user1 lg1 db r).db
      db.nextSaleId).db.products = db.products ∧
    (deleteSale user2 lg2 (createSale user1 lg1 db r).db
      db.nextSaleId).db.customers = db.customers ∧
    (deleteSale user2 lg2 (createSale user1 lg1 db r).db
      db.nextSaleId).db.sales = db.sales ∧
    (deleteSale user2 lg2 (createSale user1 lg1 db r).db
      db.nextSaleId).db.sale_items = db.sale_items := by
  have hdb1 : (createSale user1 lg1 db r).db = commitSale db r pd := by
    simp [createSale, hv, hscan]
  rw [hdb1]
  have hfind := findSale_commit db r pd hsfresh
  have hdel : (deleteSale user2 lg2 (commitSale db r pd) db.nextSaleId).db =
      deleteCommit (commitSale db r pd) db.nextSaleId (saleRow db r) := by
    simp [deleteSale, hfind]
  rw [hdel]
  refine ⟨?_, ?_, ?_, ?_⟩
  · show restock (commitSale db r pd).products
      (itemsOfSale (commitSale db r pd).sale_items db.nextSaleId) = db.products
    rw [itemsOfSale_commit db r pd hifresh]
    exact roundtrip_products db r pd hscan hdistinct hpuniq
  · exact roundtrip_customers db r pd hcuniq hcinv
  · exact sales_filter_commit db r pd hsfresh
  · exact items_filter_commit db r pd hifresh

theorem C3_create_delete_roundtrip_witness :
    (deleteSale "v" false (createSale "u" true dbEx reqOverpaidEx).db
      dbEx.nextSaleId).db.products = dbEx.products ∧
    (deleteSale "v" false (createSale "u" true dbEx reqOverpaidEx).db
      dbEx.nextSaleId).db.customers = dbEx.customers ∧
    (deleteSale "v" false (createSale "u" true dbEx reqOverpaidEx).db
      dbEx.nextSaleId).db.sales = dbEx.sales ∧
    (deleteSale "v" false (createSale "u" true dbEx reqOverpaidEx).db
      dbEx.nextSaleId).db.sale_items = dbEx.sale_items :=
  C3_create_delete_roundtrip "u" "v" true false dbEx reqOverpaidEx
    [⟨prodA, 2⟩] (by decide) (by rfl) (by decide) (by decide) (by decide)
    (by decide) (by decide)
    (by
      intro cid c hcid hfc
      have hcid7 : cid = 7 := by
        simp [reqOverpaidEx, truthyId] at hcid
        exact hcid.symm
      subst hcid7
      have hcC : c = custC := by
        simp [dbEx, findCustomer, custC] at hfc
        exact hfc.symm
      subst hcC
      exact ⟨by decide, by decide, by decide⟩)

/-- C3 counterexample: with two line items for the same product (3 and 4
units from a stock of 5) the sale commits with the product at qty 1, and
deleting it restocks 3 + 4 = 7, leaving qty 8 instead of the original 5:
create-then-delete is not the identity on duplicate line items. -/
theorem C3_create_delete_roundtrip_cex :
    (createSale "u" true dbEx reqDup2Ex).response = .created 1 ∧
    (deleteSale "u" true (createSale "u" true dbEx reqDup2Ex).db 1).response =
      .deleted ∧
    dbEx.products = [prodA] ∧ prodA.qty = 5 ∧
    (deleteSale "u" true
      (createSale "u" true dbEx reqDup2Ex).db 1).db.products =
      [{ prodA with qty := 8 }] ∧
    ¬((8 : ℚ) = 5) := by
  refine ⟨by rfl, by rfl, by rfl, by rfl, ?_, by norm_num⟩
  norm_num [createSale, validateSale, scanItems, findProduct, commitSale,
    applySaleWrites, updateQty, commitCustomers, truthyId, deleteSale,
    findSale, saleRow, saleItemsRows, deleteCommit, deleteCustomers,
    itemsOfSale, restock, incQty, fallbackName, dbEx, prodA, reqDup2Ex]

end EMS
